import Mathlib

/-!
Verification development for the Rigel report aggregation & multi-format
export engine.  Each definition is a shallow embedding of a function of the
TypeScript source (file and symbol named in its doc comment); theorems
settle the frozen claims C1–C10 against those embeddings.

Modelling conventions:
* JavaScript `Map` objects are embedded as insertion-ordered association
  lists: `Map.set` preserves the position of an existing key and appends a
  new one, `Map.get` returns `Option`.
* JavaScript numbers are embedded as `ℚ` (aggregation, after `parseFloat`)
  or `ℤ` (report amounts, always integral yen); strings stay `String`.
* `parseFloat(x) || 0` is embedded as `Option ℚ` with `.getD 0` (a `none`
  stands for a missing field or a NaN parse).
* Asynchronous code is embedded by explicit state passing (the font loader)
  or by an event trace in program order (the bulk-export loop): the runtime
  is a single cooperative event loop, so an awaited loop body is a
  deterministic sequence of steps.
-/

namespace Rigel

/-! ## JavaScript `Map` as an insertion-ordered association list -/

/-- `Map.set k v`: update in place when the key is present (keeping its
insertion position), append otherwise. -/
def jsSet {α β : Type} [DecidableEq α] (k : α) (v : β) :
    List (α × β) → List (α × β)
  | [] => [(k, v)]
  | (k', v') :: rest =>
    if k = k' then (k, v) :: rest else (k', v') :: jsSet k v rest

/-- `Map.get k`: the value stored at `k`, if any. -/
def jsGet {α β : Type} [DecidableEq α] (k : α) :
    List (α × β) → Option β
  | [] => none
  | (k', v') :: rest => if k = k' then some v' else jsGet k rest

/-! ## Month keys

`TransactionTable.tsx` buckets by `record.transaction_date.substring(0, 7)`,
a `"YYYY-MM"` string.  We embed a well-formed key as its (year, month)
pair; the string sort used by `Array.from(monthMap.keys()).sort()` agrees
with the lexicographic order on the pair for zero-padded four-digit years,
which is the domain of every claim. -/

structure MonthKey where
  year : ℕ
  month : ℕ
deriving DecidableEq, Repr

/-- Lexicographic order on month keys; mirrors the string order of
`"YYYY-MM"` keys. -/
def mkLe (a b : MonthKey) : Prop :=
  a.year < b.year ∨ (a.year = b.year ∧ a.month ≤ b.month)

instance : DecidableRel mkLe := fun a b => by unfold mkLe; infer_instance

instance : IsTotal MonthKey mkLe :=
  ⟨fun a b => by unfold mkLe; omega⟩

instance : IsTrans MonthKey mkLe :=
  ⟨fun a b c hab hbc => by unfold mkLe at *; omega⟩

instance : IsAntisymm MonthKey mkLe :=
  ⟨fun a b hab hba => by
    obtain ⟨ay, am⟩ := a; obtain ⟨by', bm⟩ := b
    unfold mkLe at *; simp_all; omega⟩

instance : IsRefl MonthKey mkLe :=
  ⟨fun a => by unfold mkLe; omega⟩

/-- A month key written by a well-formed `"YYYY-MM"` date. -/
def mkValid (k : MonthKey) : Prop := 1 ≤ k.month ∧ k.month ≤ 12

instance : DecidablePred mkValid := fun k => by unfold mkValid; infer_instance

/-- Linear month index; `new Date(y, m - 1, 1)` normalises exactly like
this arithmetic, so the month-by-month `while` walk of the source is the
walk of consecutive indices. -/
def toIdx (k : MonthKey) : ℕ := k.year * 12 + (k.month - 1)

/-- The month key the walk prints for an index (`getFullYear`,
`getMonth() + 1`). -/
def ofIdx (i : ℕ) : MonthKey := ⟨i / 12, i % 12 + 1⟩

/-! ## The monthly aggregator
(`src/components/transaction/TransactionTable.tsx`, `MonthlyChartPanel`,
lines 724–842) -/

/-- Income / expense classification (`'income' | 'expense'`). -/
inductive AccountType where
  | income
  | expense
deriving DecidableEq, Repr

/-- One record of the `JournalResponse` as read by the chart panel.  The
numeric fields hold the result of `parseFloat(...)`: `none` embeds a
missing field or a NaN parse, so `parseFloat(x) || 0` is `(x).getD 0`.
`transaction_date` holds the parsed `"YYYY-MM"` prefix, `none` for a
missing/empty date string. -/
structure ChartRec where
  transaction_date : Option MonthKey
  transaction_type : Option ℤ
  credit_item : Option String
  credit_amount : Option ℚ
  credit_ct : Option ℚ
  debit_item : Option String
  debit_amount : Option ℚ
  debit_ct : Option ℚ
deriving DecidableEq, Repr

/-- JavaScript string truthiness (`undefined` and `''` are falsy). -/
def strTruthy : Option String → Bool
  | none => false
  | some s => s ≠ ""

/-- `parseFloat(x) || 0`. -/
def numOr0 (o : Option ℚ) : ℚ := o.getD 0

/-- Synthetic tax-collected pseudo-account name. -/
def taxCollectedName : String := "仮受消費税"

/-- Synthetic tax-paid pseudo-account name. -/
def taxPaidName : String := "仮払消費税"

/-- Per-month bucket: account name ↦ accumulated (unsigned) amount. -/
abbrev Bucket := List (String × ℚ)

/-- Account name ↦ classification, in first-seen order. -/
abbrev AcctSet := List (String × AccountType)

/-- The `transaction_type === 1` branch: post the credit item and the
credit-side tax into the month's bucket and the account set. -/
def applyIncome (md : Bucket) (acctSet : AcctSet) (r : ChartRec) :
    Bucket × AcctSet :=
  let amount := numOr0 r.credit_amount
  let step1 : Bucket × AcctSet :=
    match r.credit_item with
    | some itemName =>
      if itemName ≠ "" ∧ amount > 0 then
        (jsSet itemName ((jsGet itemName md).getD 0 + amount) md,
         jsSet itemName AccountType.income acctSet)
      else (md, acctSet)
    | none => (md, acctSet)
  let taxAmount := numOr0 r.credit_ct
  if taxAmount > 0 then
    (jsSet taxCollectedName
       ((jsGet taxCollectedName step1.1).getD 0 + taxAmount) step1.1,
     jsSet taxCollectedName AccountType.income step1.2)
  else step1

/-- The `transaction_type === 2` branch: post the debit item and the
debit-side tax. -/
def applyExpense (md : Bucket) (acctSet : AcctSet) (r : ChartRec) :
    Bucket × AcctSet :=
  let amount := numOr0 r.debit_amount
  let step1 : Bucket × AcctSet :=
    match r.debit_item with
    | some itemName =>
      if itemName ≠ "" ∧ amount > 0 then
        (jsSet itemName ((jsGet itemName md).getD 0 + amount) md,
         jsSet itemName AccountType.expense acctSet)
      else (md, acctSet)
    | none => (md, acctSet)
  let taxAmount := numOr0 r.debit_ct
  if taxAmount > 0 then
    (jsSet taxPaidName
       ((jsGet taxPaidName step1.1).getD 0 + taxAmount) step1.1,
     jsSet taxPaidName AccountType.expense step1.2)
  else step1

/-- Month map plus account set: the two accumulators of the record fold. -/
abbrev AggState := List (MonthKey × Bucket) × AcctSet

/-- Body of `data.records.forEach(record => ...)`.  A record without a
date returns early; otherwise the month's bucket is created on demand
(`if (!monthMap.has(month)) monthMap.set(month, new Map())`) and the
branch on `transaction_type` posts into it. -/
def foldRecord (st : AggState) (r : ChartRec) : AggState :=
  match r.transaction_date with
  | none => st
  | some month =>
    let monthData := (jsGet month st.1).getD []
    if r.transaction_type = some 1 then
      let res := applyIncome monthData st.2 r
      (jsSet month res.1 st.1, res.2)
    else if r.transaction_type = some 2 then
      let res := applyExpense monthData st.2 r
      (jsSet month res.1 st.1, res.2)
    else
      (jsSet month monthData st.1, st.2)

/-- Income-series palette (`INCOME_COLORS`). -/
def INCOME_COLORS : List String :=
  ["#10b981", "#06b6d4", "#0ea5e9", "#3b82f6", "#6366f1",
   "#34d399", "#22d3ee", "#38bdf8", "#60a5fa", "#818cf8"]

/-- Expense-series palette (`EXPENSE_COLORS`). -/
def EXPENSE_COLORS : List String :=
  ["#f97316", "#ef4444", "#ec4899", "#f59e0b", "#e11d48",
   "#fb923c", "#f87171", "#f472b6", "#fbbf24", "#fb7185"]

/-- `AccountInfo`: name, classification and assigned display color. -/
structure AccountInfo where
  name : String
  type : AccountType
  color : String
deriving DecidableEq, Repr

/-- One step of `accountSet.forEach((type, name) => ...)`: append the
account with the next palette color of its classification (state carries
the two palette counters `incomeIdx`, `expenseIdx`). -/
def buildAccountsStep (st : List AccountInfo × ℕ × ℕ)
    (p : String × AccountType) : List AccountInfo × ℕ × ℕ :=
  match p.2 with
  | AccountType.income =>
    (st.1 ++ [⟨p.1, AccountType.income,
      INCOME_COLORS.getD (st.2.1 % INCOME_COLORS.length) ""⟩],
     st.2.1 + 1, st.2.2)
  | AccountType.expense =>
    (st.1 ++ [⟨p.1, AccountType.expense,
      EXPENSE_COLORS.getD (st.2.2 % EXPENSE_COLORS.length) ""⟩],
     st.2.1, st.2.2 + 1)

/-- `accountSet.forEach((type, name) => ...)`: build the account list in
first-seen order, drawing colors cyclically from the palette of the
classification. -/
def buildAccounts (acctSet : AcctSet) : List AccountInfo :=
  (acctSet.foldl buildAccountsStep ([], 0, 0)).1

/-- One `MonthlyData` row: the month key plus the signed per-account
values (the dynamic `result[acc.name]` properties). -/
structure MonthlyData where
  month : MonthKey
  vals : List (String × ℚ)
deriving DecidableEq, Repr

/-- The two fold accumulators after `data.records.forEach(...)`. -/
def foldState (records : List ChartRec) : AggState :=
  records.foldl foldRecord ([], [])

/-- `Array.from(monthMap.keys()).sort()`: the month keys present in the
data, sorted. -/
def dataMonthsOf (records : List ChartRec) : List MonthKey :=
  List.insertionSort mkLe ((foldState records).1.map Prod.fst)

/-- The `while (current <= endDate)` walk: every month from `first` to
`last` inclusive (via `Date` arithmetic, i.e. consecutive month
indices). -/
def monthRange (first last : MonthKey) : List MonthKey :=
  (List.range (toIdx last + 1 - toIdx first)).map
    (fun i => ofIdx (toIdx first + i))

/-- One element of `monthlyData`: the bucket row for month `mo`, with
every known account present, defaulting to 0
(`monthData?.get(acc.name) || 0`) and signed by classification. -/
def monthRow (monthMap : List (MonthKey × Bucket))
    (accounts : List AccountInfo) (mo : MonthKey) : MonthlyData :=
  let monthData := jsGet mo monthMap
  { month := mo
    vals := accounts.map (fun acc =>
      let amount := (monthData.bind (jsGet acc.name)).getD 0
      (acc.name,
       if acc.type = AccountType.income then amount else -amount)) }

/-- The `useMemo` body of `MonthlyChartPanel`: fold all records, derive
the actual month range from the data (not from the requested date range),
walk it month by month and build a signed bucket row for every month in
range; if no month key is present the result is empty. -/
def aggregate (records : List ChartRec) :
    List MonthlyData × List AccountInfo :=
  match dataMonthsOf records with
  | [] => ([], [])
  | firstDataMonth :: restMonths =>
    let lastDataMonth := (firstDataMonth :: restMonths).getLast (by simp)
    let accounts := buildAccounts (foldState records).2
    ((monthRange firstDataMonth lastDataMonth).map
       (monthRow (foldState records).1 accounts),
     accounts)

/-- The months each record carries (skipping missing dates). -/
def datedMonths (records : List ChartRec) : List MonthKey :=
  records.filterMap (·.transaction_date)

/-! ## Contribution accounting (specification-side view of the fold)

These definitions re-express, per record, what the fold posts; the
theorems below prove that the fold's buckets equal their sums. -/

/-- The amount stored for `name` in bucket `b` (0 when absent). -/
def bAmt (b : Bucket) (name : String) : ℚ := (jsGet name b).getD 0

/-- The amount stored for account `name` in the bucket of month `mo`
(0 when the month or the account is absent). -/
def bucketAmt (mm : List (MonthKey × Bucket)) (mo : MonthKey)
    (name : String) : ℚ :=
  ((jsGet mo mm).bind (jsGet name)).getD 0

/-- What a `transaction_type === 1` record adds to account `name` of its
month: the credit amount when `name` is its credit item (guarded exactly
as the source), plus the credit tax when `name` is the synthetic
tax-collected account. -/
def incContrib (r : ChartRec) (name : String) : ℚ :=
  (match r.credit_item with
   | some itemName =>
     if itemName ≠ "" ∧ numOr0 r.credit_amount > 0 then
       (if name = itemName then numOr0 r.credit_amount else 0)
     else 0
   | none => 0)
  + (if numOr0 r.credit_ct > 0 then
       (if name = taxCollectedName then numOr0 r.credit_ct else 0)
     else 0)

/-- What a `transaction_type === 2` record adds to account `name` of its
month. -/
def expContrib (r : ChartRec) (name : String) : ℚ :=
  (match r.debit_item with
   | some itemName =>
     if itemName ≠ "" ∧ numOr0 r.debit_amount > 0 then
       (if name = itemName then numOr0 r.debit_amount else 0)
     else 0
   | none => 0)
  + (if numOr0 r.debit_ct > 0 then
       (if name = taxPaidName then numOr0 r.debit_ct else 0)
     else 0)

/-- The total amount record `r` posts to account `name` in month `mo`. -/
def contrib (r : ChartRec) (mo : MonthKey) (name : String) : ℚ :=
  match r.transaction_date with
  | none => 0
  | some m =>
    if m = mo then
      if r.transaction_type = some 1 then incContrib r name
      else if r.transaction_type = some 2 then expContrib r name
      else 0
    else 0

/-- Record `r` inserts `name` into the account set classified as income. -/
def postsIncome (r : ChartRec) (name : String) : Prop :=
  r.transaction_date.isSome ∧ r.transaction_type = some 1 ∧
    ((r.credit_item = some name ∧ name ≠ "" ∧ numOr0 r.credit_amount > 0)
     ∨ (name = taxCollectedName ∧ numOr0 r.credit_ct > 0))

/-- Record `r` inserts `name` into the account set classified as
expense. -/
def postsExpense (r : ChartRec) (name : String) : Prop :=
  r.transaction_date.isSome ∧ r.transaction_type = some 2 ∧
    ((r.debit_item = some name ∧ name ≠ "" ∧ numOr0 r.debit_amount > 0)
     ∨ (name = taxPaidName ∧ numOr0 r.debit_ct > 0))

instance (r : ChartRec) (name : String) : Decidable (postsIncome r name) := by
  unfold postsIncome; infer_instance

instance (r : ChartRec) (name : String) : Decidable (postsExpense r name) := by
  unfold postsExpense; infer_instance

/-- Everything record `r` posts (primary amount plus tax) as income in
month `mo`. -/
def recIncomePosted (r : ChartRec) (mo : MonthKey) : ℚ :=
  match r.transaction_date with
  | none => 0
  | some m =>
    if m = mo ∧ r.transaction_type = some 1 then
      (match r.credit_item with
       | some itemName =>
         if itemName ≠ "" ∧ numOr0 r.credit_amount > 0 then
           numOr0 r.credit_amount
         else 0
       | none => 0)
      + (if numOr0 r.credit_ct > 0 then numOr0 r.credit_ct else 0)
    else 0

/-- Everything record `r` posts as expense in month `mo`. -/
def recExpensePosted (r : ChartRec) (mo : MonthKey) : ℚ :=
  match r.transaction_date with
  | none => 0
  | some m =>
    if m = mo ∧ r.transaction_type = some 2 then
      (match r.debit_item with
       | some itemName =>
         if itemName ≠ "" ∧ numOr0 r.debit_amount > 0 then
           numOr0 r.debit_amount
         else 0
       | none => 0)
      + (if numOr0 r.debit_ct > 0 then numOr0 r.debit_ct else 0)
    else 0

/-- Total income posted in month `mo` over the whole record set. -/
def incomeTotal (records : List ChartRec) (mo : MonthKey) : ℚ :=
  (records.map (recIncomePosted · mo)).sum

/-- Total expense posted in month `mo` over the whole record set. -/
def expenseTotal (records : List ChartRec) (mo : MonthKey) : ℚ :=
  (records.map (recExpensePosted · mo)).sum

/-- Sum of the strictly positive entries of a bucket row. -/
def sumPos (vals : List (String × ℚ)) : ℚ :=
  (vals.map (fun p => if p.2 > 0 then p.2 else 0)).sum

/-- Sum of the absolute values of the strictly negative entries of a
bucket row. -/
def sumNegAbs (vals : List (String × ℚ)) : ℚ :=
  (vals.map (fun p => if p.2 < 0 then -p.2 else 0)).sum

/-- The finitely many names a record can post as income (used to make
the no-mixed-classification hypothesis checkable on concrete input). -/
def postedIncomeNames (r : ChartRec) : List String :=
  (match r.credit_item with
   | some s => [s]
   | none => []) ++ [taxCollectedName]

/-- The finitely many names a record can post as expense. -/
def postedExpenseNames (r : ChartRec) : List String :=
  (match r.debit_item with
   | some s => [s]
   | none => []) ++ [taxPaidName]

/-! ## Trend projection
(`src/components/transaction/TransactionTable.tsx`, `lineChartData`,
lines 856–880) -/

/-- One point of the trend line: month, the account's absolute
contribution, and its rounded share of the class total. -/
structure TrendPoint where
  month : MonthKey
  value : ℚ
  percentage : ℚ
deriving DecidableEq, Repr

/-- `Math.round`: nearest integer, halves toward positive infinity. -/
def jsRound (q : ℚ) : ℤ := ⌊q + 1 / 2⌋

/-- `Number(md[name]) || 0`: the signed per-account value of a bucket
row, 0 for an absent key. -/
def getVal (md : MonthlyData) (name : String) : ℚ :=
  (jsGet name md.vals).getD 0

/-- The running total `accounts.forEach(... if (acc.type === selectedAcc.type)
total += Math.abs(...))`. -/
def classTotal (md : MonthlyData) (accounts : List AccountInfo)
    (ty : AccountType) : ℚ :=
  (accounts.map (fun acc =>
    if acc.type = ty then |getVal md acc.name| else 0)).sum

/-- The `lineChartData` memo: empty for `'all'` or an unknown account;
otherwise one point per month with the account's absolute value and its
percentage of the class total, rounded to one decimal, 0 when the class
total is not positive. -/
def lineChartData (monthlyData : List MonthlyData)
    (accounts : List AccountInfo) (selectedAccount : String) :
    List TrendPoint :=
  if selectedAccount = "all" then []
  else
    match accounts.find? (fun a => a.name = selectedAccount) with
    | none => []
    | some selectedAcc =>
      monthlyData.map (fun md =>
        let accountValue := |getVal md selectedAccount|
        let total := classTotal md accounts selectedAcc.type
        let percentage := if total > 0 then accountValue / total * 100 else 0
        { month := md.month
          value := accountValue
          percentage := (jsRound (percentage * 10) : ℚ) / 10 })

/-! ## Paginated-document exporter (`src/utils/pdfGenerator.ts`)

The three generators (`generateJournalPDF`, `generateTrialBalancePDF`,
`generateLedgerPDF`) share one skeleton: lay the table out with
`autoTable` (page count unknown), then read
`doc.internal.pages.length - 1` (the jsPDF pages array keeps a dummy
entry at index 0) and stamp every page's footer in a second loop.
`autoTable`'s row-to-page layout is abstracted as chunking the body by a
per-page row capacity; everything after layout is modelled exactly. -/

/-- `PDFConfig` of `pdfGenerator.ts`. -/
structure PDFConfig where
  title : String
  dateRange : String
  companyName : String
deriving DecidableEq, Repr

/-- One produced page: the table rows drawn in pass 1 and the footer
text ops stamped in pass 2. -/
structure RenderedPage where
  content : List (List String)
  footer : List String
deriving DecidableEq, Repr

/-- `addPageFooter`: company name at the left (when non-empty) and
`Page X / total` at the right. -/
def addPageFooter (config : PDFConfig) (pageNumber totalPages : ℕ) :
    List String :=
  (if config.companyName ≠ "" then [config.companyName] else []) ++
  ["Page " ++ toString pageNumber ++ " / " ++ toString totalPages]

/-- Rows split into pages of at most `cap` rows (layout abstraction of
`autoTable`; a capacity below 1 behaves as 1). -/
def chunksOf {α : Type} (cap : ℕ) (l : List α) : List (List α) :=
  match l with
  | [] => []
  | x :: rest =>
    (x :: rest).take (max cap 1) :: chunksOf cap ((x :: rest).drop (max cap 1))
termination_by l.length
decreasing_by
  simp only [List.length_drop, List.length_cons]
  have h1 : 1 ≤ max cap 1 := le_max_right _ _
  omega

/-- The pages `autoTable` produces: the document always has at least its
first page, and a non-empty body is chunked across pages. -/
def autoTablePages (body : List (List String)) (cap : ℕ) :
    List (List (List String)) :=
  if body = [] then [[]] else chunksOf cap body

/-- The footer loop `for (let i = 1; i <= totalPages; i++) { doc.setPage(i);
addPageFooter(doc, config, i, totalPages) }`, visiting pages in order
starting at page number `k + 1`. -/
def stampFrom (config : PDFConfig) (totalPages k : ℕ) :
    List RenderedPage → List RenderedPage
  | [] => []
  | p :: rest =>
    { p with footer := p.footer ++ addPageFooter config (k + 1) totalPages }
      :: stampFrom config totalPages (k + 1) rest

/-- The shared generator skeleton: render the table first (page count
unknown), then `totalPages = doc.internal.pages.length - 1` and a second
pass stamping every produced page's footer. -/
def generatePagedDoc (headers : List (List String))
    (body : List (List String)) (cap : ℕ) (config : PDFConfig) :
    List RenderedPage :=
  let tablePages := (autoTablePages body cap).map
    (fun rows => RenderedPage.mk (headers ++ rows) [])
  let internalPagesLen := tablePages.length + 1
  let totalPages := internalPagesLen - 1
  stampFrom config totalPages 0 tablePages

/-! ## Delimited-text exporters

Three CSV builders: `JournalResult.handleExportCSV` (8 columns, no
totals row), `LedgerResult.generateLedgerCSV` (6 columns plus a totals
row) and `TrialBalanceResult.handleExportCSV` (5 columns plus a totals
row); plus the transaction-list export of `ExportButton.handleExportCSV`
(13 columns).  Amounts reach the journal exports as raw API strings
(`r.debit_amount || ''`), and as numbers in the ledger / trial-balance
structures. -/

/-- `[x₀, …].join(sep)` at character level. -/
def joinWithChar (sep : Char) : List (List Char) → List Char
  | [] => []
  | [x] => x
  | x :: y :: rest => x ++ sep :: joinWithChar sep (y :: rest)

/-- Split a character list at every separator (inverse of
`joinWithChar` for separator-free pieces). -/
def splitOnChar (sep : Char) (l : List Char) : List (List Char) :=
  l.foldr (fun c acc =>
    match acc with
    | [] => [[]]
    | cur :: rest =>
      if c = sep then [] :: cur :: rest else (c :: cur) :: rest) [[]]

/-- String-level split. -/
def splitStr (sep : Char) (s : String) : List String :=
  (splitOnChar sep s.data).map String.mk

/-- `"${s.replace(/"/g, '""')}"`: wrap in quotes, double internal
quotes. -/
def quoteCell (s : String) : String :=
  ⟨'"' :: (s.data.map
      (fun c => if c = '"' then ['"', '"'] else [c])).flatten ++ ['"']⟩

/-- `s.split('T')[0]`. -/
def splitT (s : String) : String := ⟨s.data.takeWhile (· ≠ 'T')⟩

/-- `x || ''` on an optional string. -/
def orEmpty (o : Option String) : String := o.getD ""

/-- One `JournalResponse` record as the CSV exports read it (raw API
strings; `none` embeds a missing field). -/
structure CsvRec where
  transaction_date : Option String
  description : Option String
  transaction_type : Option ℤ
  fin_type : Option ℤ
  debit_item : Option String
  debit_amount : Option String
  debit_ct : Option String
  credit_item : Option String
  credit_amount : Option String
  credit_ct : Option String
  ct_rate : Option ℤ
  created_at : Option String
  updated_at : Option String
deriving DecidableEq, Repr

/-- `formatDate` of `JournalResult`: `'-'` for a missing/empty date,
else the part before `'T'`. -/
def formatDateJR (o : Option String) : String :=
  match o with
  | none => "-"
  | some s => if s = "" then "-" else splitT s

/-- Header row of `JournalResult.handleExportCSV`. -/
def journalCsvHeaders : List String :=
  ["日付", "備考", "借方科目", "借方金額", "借方税額",
   "貸方科目", "貸方金額", "貸方税額"]

/-- One data row of `JournalResult.handleExportCSV`; only the
description is quoted. -/
def journalCsvRow (r : CsvRec) : List String :=
  [formatDateJR r.transaction_date,
   quoteCell (orEmpty r.description),
   orEmpty r.debit_item,
   orEmpty r.debit_amount,
   orEmpty r.debit_ct,
   orEmpty r.credit_item,
   orEmpty r.credit_amount,
   orEmpty r.credit_ct]

/-- `BOM + [headers.join(','), ...rows.map(r => r.join(','))].join('\n')`. -/
def csvContent (headers : List String) (rows : List (List String)) :
    String :=
  ⟨'\uFEFF' :: joinWithChar '\n'
    ((headers :: rows).map
      (fun row => joinWithChar ',' (row.map String.data)))⟩

/-- `JournalResult.handleExportCSV`: header plus one row per record —
no totals row is appended. -/
def journalCsv (records : List CsvRec) : String :=
  csvContent journalCsvHeaders (records.map journalCsvRow)

/-- One 総勘定元帳 entry (`LedgerEntry` of `types/index.ts`); fields
romanised: `date` = 年月日, `counterAccount` = 相手勘定科目,
`note` = 摘要, `debitAmount` = 借方金額, `creditAmount` = 貸方金額,
`balance` = 残高. -/
structure LedgerEntry where
  date : String
  counterAccount : String
  note : Option String
  debitAmount : Option ℤ
  creditAmount : Option ℤ
  balance : ℤ
deriving DecidableEq, Repr

/-- One per-account ledger with its summary (`accountName` = 勘定科目,
summary fields 借方合計 / 貸方合計 / 残高). -/
structure Ledger where
  accountName : String
  entries : List LedgerEntry
  summaryDebitTotal : ℤ
  summaryCreditTotal : ℤ
  summaryBalance : ℤ
deriving DecidableEq, Repr

/-- `x ?? ''` on an optional number (0 is kept, only null/undefined
become empty). -/
def nullishIntCell (o : Option ℤ) : String :=
  match o with
  | none => ""
  | some n => toString n

/-- Header row of `generateLedgerCSV`. -/
def ledgerCsvHeaders : List String :=
  ["日付", "相手勘定科目", "摘要", "借方金額", "貸方金額", "残高"]

/-- Rows of `generateLedgerCSV`: entry rows then the appended 合計
row (labelled in column 0, columns 1–2 left empty). -/
def generateLedgerCSVRows (l : Ledger) : List (List String) :=
  (l.entries.map (fun e =>
    [e.date,
     e.counterAccount,
     quoteCell (e.note.getD ""),
     nullishIntCell e.debitAmount,
     nullishIntCell e.creditAmount,
     toString e.balance]))
  ++ [["合計", "", "",
       toString l.summaryDebitTotal,
       toString l.summaryCreditTotal,
       toString l.summaryBalance]]

/-- `generateLedgerCSV` (shared by `LedgerResult` and its single/all
export buttons). -/
def generateLedgerCSV (l : Ledger) : String :=
  csvContent ledgerCsvHeaders (generateLedgerCSVRows l)

/-- One 試算表 entry (`accountName` = 勘定科目, `debitTotal` = 借方合計,
`creditTotal` = 貸方合計, `debitBalance` = 借方残高,
`creditBalance` = 貸方残高). -/
structure TrialBalanceEntry where
  accountName : String
  debitTotal : ℤ
  creditTotal : ℤ
  debitBalance : ℤ
  creditBalance : ℤ
deriving DecidableEq, Repr

/-- The 試算表 response with its summary row. -/
structure TrialBalance where
  entries : List TrialBalanceEntry
  summaryDebitBalance : ℤ
  summaryDebitTotal : ℤ
  summaryCreditTotal : ℤ
  summaryCreditBalance : ℤ
deriving DecidableEq, Repr

/-- `x || ''` on a number: zero renders empty. -/
def falsyIntCell (n : ℤ) : String := if n = 0 then "" else toString n

/-- Header row of `TrialBalanceResult.handleExportCSV`. -/
def trialBalanceCsvHeaders : List String :=
  ["借方残高", "借方合計", "勘定科目", "貸方合計", "貸方残高"]

/-- Rows of `TrialBalanceResult.handleExportCSV`: entry rows then the
appended 合計 row carrying the literal numeric summary values. -/
def trialBalanceCsvRows (d : TrialBalance) : List (List String) :=
  (d.entries.map (fun e =>
    [falsyIntCell e.debitBalance,
     falsyIntCell e.debitTotal,
     e.accountName,
     falsyIntCell e.creditTotal,
     falsyIntCell e.creditBalance]))
  ++ [[toString d.summaryDebitBalance,
       toString d.summaryDebitTotal,
       "合計",
       toString d.summaryCreditTotal,
       toString d.summaryCreditBalance]]

/-- `TrialBalanceResult.handleExportCSV`. -/
def trialBalanceCsv (d : TrialBalance) : String :=
  csvContent trialBalanceCsvHeaders (trialBalanceCsvRows d)

/-- `t.transaction_type ? TRANSACTION_TYPE_LABELS_JP[...] : ''`. -/
def transactionTypeLabel : Option ℤ → String
  | some 1 => "収入"
  | some 2 => "支出"
  | _ => ""

/-- `t.fin_type ? FIN_TYPE_LABELS_JP[...] : ''`. -/
def finTypeLabel : Option ℤ → String
  | some 1 => "現金"
  | some 2 => "銀行振込/デビット"
  | some 3 => "電子マネー/QR決済"
  | some 4 => "個人クレジットカード"
  | some 5 => "法人クレジットカード"
  | _ => ""

/-- `t.ct_rate !== undefined ? CT_RATE_LABELS_JP[t.ct_rate] || '' : ''`. -/
def ctRateLabel : Option ℤ → String
  | some 0 => "非課税"
  | some 1 => "8%"
  | some 2 => "10%"
  | some 3 => "混合"
  | some 4 => "その他"
  | _ => ""

/-- `t.transaction_date?.split('T')[0] || ''`. -/
def dateCell (o : Option String) : String :=
  match o with
  | none => ""
  | some s => splitT s

/-- Header row of `ExportButton.handleExportCSV`. -/
def exportButtonCsvHeaders : List String :=
  ["日付", "種類", "決済方法", "備考", "借方科目", "借方金額", "借方税額",
   "貸方科目", "貸方金額", "貸方税額", "税率", "記帳日時", "更新日時"]

/-- One data row of `ExportButton.handleExportCSV`; only the
description cell is quoted. -/
def exportButtonCsvRow (t : CsvRec) : List String :=
  [dateCell t.transaction_date,
   transactionTypeLabel t.transaction_type,
   finTypeLabel t.fin_type,
   quoteCell (orEmpty t.description),
   orEmpty t.debit_item,
   orEmpty t.debit_amount,
   orEmpty t.debit_ct,
   orEmpty t.credit_item,
   orEmpty t.credit_amount,
   orEmpty t.credit_ct,
   ctRateLabel t.ct_rate,
   dateCell t.created_at,
   dateCell t.updated_at]

/-- `ExportButton.handleExportCSV` content (the empty-selection early
return is the caller's concern). -/
def exportButtonCsv (ts : List CsvRec) : String :=
  csvContent exportButtonCsvHeaders (ts.map exportButtonCsvRow)

/-! ## PDF amount formatting (`formatAmount` of `pdfGenerator.ts`)

`formatAmount` renders null/undefined as the empty string, zero as the
literal string `"0"` — before and regardless of any totals-row
distinction — and any other amount via
`amount.toLocaleString('ja-JP')`, which for an integer is the minus
sign followed by the decimal digits in groups of three separated by
commas, with no currency symbol. -/

/-- One decimal digit as a character (`0 ↦ '0', …, 9 ↦ '9'`). -/
def digitChar (d : ℕ) : Char := Char.ofNat (48 + d)

/-- Decimal digit characters of a natural number, most significant
digit first. -/
def natDecimalDigits (n : ℕ) : List Char :=
  if h : n < 10 then [digitChar n]
  else natDecimalDigits (n / 10) ++ [digitChar (n % 10)]
termination_by n
decreasing_by exact Nat.div_lt_self (by omega) (by omega)

/-- Thousands groups of a digit string, most significant group first:
chunks of three counted from the right. -/
def chunksRight (ds : List Char) : List (List Char) :=
  ((chunksOf 3 ds.reverse).map List.reverse).reverse

/-- `n.toLocaleString('ja-JP')` on an integer: optional minus sign,
then the digit groups joined with commas — no currency symbol. -/
def localeStringJa (n : ℤ) : String :=
  ⟨(if n < 0 then ['-'] else []) ++
    joinWithChar ',' (chunksRight (natDecimalDigits n.natAbs))⟩

/-- `formatAmount(amount)`: null/undefined → `''`, zero → `'0'`
(unconditionally, the check precedes any row context), otherwise
`toLocaleString('ja-JP')`. -/
def formatAmount (o : Option ℤ) : String :=
  match o with
  | none => ""
  | some n => if n = 0 then "0" else localeStringJa n

/-- The fields of `Transaction` the 仕訳帳 PDF body reads (amounts are
numbers here, unlike the raw API strings of the CSV exports). -/
structure PdfTxn where
  transaction_date : Option String
  transaction_type : Option ℤ
  fin_type : Option ℤ
  description : Option String
  debit_item : Option String
  debit_amount : Option ℤ
  debit_ct : Option ℤ
  credit_item : Option String
  credit_amount : Option ℤ
  credit_ct : Option ℤ
  ct_rate : Option ℤ
deriving DecidableEq, Repr

/-- `t.transaction_type ? TRANSACTION_TYPE_MAP[...] || '' : ''`. -/
def transactionTypePdf : Option ℤ → String
  | some 1 => "収入"
  | some 2 => "支出"
  | _ => ""

/-- `t.fin_type ? FIN_TYPE_MAP[...] || '' : ''` (the PDF's short
labels). -/
def finTypePdf : Option ℤ → String
  | some 1 => "現金"
  | some 2 => "銀行"
  | some 3 => "電子"
  | some 4 => "クレカ"
  | some 5 => "他"
  | _ => ""

/-- `t.ct_rate !== undefined ? CT_RATE_MAP[t.ct_rate] || '' : ''`. -/
def ctRatePdf : Option ℤ → String
  | some 0 => "非課税"
  | some 1 => "8%"
  | some 2 => "10%"
  | some 3 => "混合"
  | some 4 => "他"
  | _ => ""

/-- One body row of `generateJournalPDF` (11 columns; every amount
cell goes through `formatAmount`). -/
def journalPdfRow (t : PdfTxn) : List String :=
  [dateCell t.transaction_date,
   transactionTypePdf t.transaction_type,
   finTypePdf t.fin_type,
   orEmpty t.description,
   orEmpty t.debit_item,
   formatAmount t.debit_amount,
   formatAmount t.debit_ct,
   orEmpty t.credit_item,
   formatAmount t.credit_amount,
   formatAmount t.credit_ct,
   ctRatePdf t.ct_rate]

/-- The body of `generateLedgerPDF`: entry rows, then the pushed 合計
row — in the totals row too, every amount cell goes through
`formatAmount`. -/
def ledgerPdfRows (l : Ledger) : List (List String) :=
  (l.entries.map (fun e =>
    [e.date, e.counterAccount, orEmpty e.note,
     formatAmount e.debitAmount,
     formatAmount e.creditAmount,
     formatAmount (some e.balance)]))
  ++ [["", "", "合計",
       formatAmount (some l.summaryDebitTotal),
       formatAmount (some l.summaryCreditTotal),
       formatAmount (some l.summaryBalance)]]

/-! ## ZIP bundling (`part_007`: `handleExportAllCSV` / `handlePDFExport`)

`JSZip`'s `zip.file(name, content)` keeps entries in insertion order
and overwrites only an identical name — the same semantics as a JS
`Map` — performing no renaming and no deduplication of distinct names.
The awaited PDF loop is modelled with an explicit event trace: each
document's generation completes (`generated`) before its archive entry
is added (`filed`) and before the next document starts. -/

/-- The per-document archive entry name:
`総勘定元帳_` + account name + `_` + date range + extension. -/
def ledgerZipName (acct df dt ext : String) : String :=
  "総勘定元帳_" ++ acct ++ "_" ++ df ++ "_" ++ dt ++ ext

/-- `zip.file(name, content)`. -/
def zipFile {β : Type} (name : String) (content : β)
    (zip : List (String × β)) : List (String × β) :=
  jsSet name content zip

/-- `handleExportAllCSV`: `data.ledgers.forEach(ledger =>
zip.file(..., generateLedgerCSV(ledger)))`. -/
def handleExportAllCSV (ledgers : List Ledger) (df dt : String) :
    List (String × String) :=
  ledgers.foldl (fun zip l =>
    zipFile (ledgerZipName l.accountName df dt ".csv")
      (generateLedgerCSV l) zip) []

/-- Events of the awaited export-all PDF loop, in execution order. -/
inductive ZipEvent where
  | generated (acct : String)
  | filed (name : String)
deriving DecidableEq, Repr

/-- Header row of the 総勘定元帳 PDF table. -/
def ledgerPdfHeader : List (List String) :=
  [["日付", "相手勘定科目", "摘要", "借方金額", "貸方金額", "残高"]]

/-- `handlePDFExport` in export-all mode: the sequential
`for (const ledger of data.ledgers) { const blob = await
generateLedgerPDF(...); zip.file(...) }` loop, returning the event
trace and the archive. -/
def handlePDFExport (ledgers : List Ledger) (df dt : String)
    (cap : ℕ) (config : PDFConfig) :
    List ZipEvent × List (String × List RenderedPage) :=
  ledgers.foldl (fun st l =>
    (st.1 ++ [ZipEvent.generated l.accountName,
              ZipEvent.filed (ledgerZipName l.accountName df dt ".pdf")],
     zipFile (ledgerZipName l.accountName df dt ".pdf")
       (generatePagedDoc ledgerPdfHeader (ledgerPdfRows l) cap config)
       st.2)) ([], [])

/-! ## Font loading (`pdfGenerator.ts`, `loadFontData`)

Module-level state: the two base64 caches and the in-flight promise.
A settled promise is its outcome; `loadFontData` is a transition
returning the new state, the call's outcome and whether a fetch was
attempted.  The source never assigns `fontLoadPromise = null` again,
so a rejected promise stays cached. -/

/-- The three module-level variables of `pdfGenerator.ts`. -/
structure FontState where
  fontJPBase64 : Option String
  fontSCBase64 : Option String
  fontLoadPromise : Option (Except String (String × String))
deriving Repr

/-- One call of `loadFontData`, given what a fetch would return if one
were attempted: cache hit returns the caches; an existing promise is
awaited (no fetch); otherwise the fetch runs, filling both caches on
success and recording the rejection — without touching the caches —
on failure. -/
def loadFontData (st : FontState)
    (fetchResult : Except String (String × String)) :
    FontState × Except String (String × String) × Bool :=
  match st.fontJPBase64, st.fontSCBase64 with
  | some jp, some sc => (st, Except.ok (jp, sc), false)
  | _, _ =>
    match st.fontLoadPromise with
    | some result =>
      (st,
       (match result with
        | Except.ok _ =>
          Except.ok (st.fontJPBase64.getD "", st.fontSCBase64.getD "")
        | Except.error e => Except.error e),
       false)
    | none =>
      match fetchResult with
      | Except.ok (jp, sc) =>
        (⟨some jp, some sc, some (Except.ok (jp, sc))⟩,
         Except.ok (jp, sc), true)
      | Except.error e =>
        ({ st with fontLoadPromise := some (Except.error e) },
         Except.error e, true)

/-- A session of successive `loadFontData` calls: thread the module
state through and record each call's (outcome, fetch-attempted) pair. -/
def runCalls (st : FontState)
    (fetches : List (Except String (String × String))) :
    FontState × List (Except String (String × String) × Bool) :=
  fetches.foldl (fun acc f =>
    ((loadFontData acc.1 f).1, acc.2 ++ [(loadFontData acc.1 f).2]))
    (st, [])

/-! # Theorems -/

theorem jsGet_jsSet {α β : Type} [DecidableEq α] (k k' : α) (v : β)
    (m : List (α × β)) :
    jsGet k' (jsSet k v m) = if k' = k then some v else jsGet k' m := by
  induction m with
  | nil =>
    by_cases h : k' = k <;> simp [jsSet, jsGet, h]
  | cons p rest ih =>
    obtain ⟨k₀, v₀⟩ := p
    by_cases hk : k = k₀
    · subst hk
      by_cases h : k' = k <;> simp [jsSet, jsGet, h]
    · by_cases h : k' = k₀
      · subst h
        have hne : ¬ k' = k := fun h' => hk h'.symm
        simp [jsSet, jsGet, hk, hne]
      · simp [jsSet, jsGet, hk, h, ih]

theorem jsSet_keys {α β : Type} [DecidableEq α] (k : α) (v : β)
    (m : List (α × β)) :
    (jsSet k v m).map Prod.fst =
      if (jsGet k m).isSome then m.map Prod.fst else m.map Prod.fst ++ [k] := by
  induction m with
  | nil => simp [jsSet, jsGet]
  | cons p rest ih =>
    obtain ⟨k₀, v₀⟩ := p
    by_cases hk : k = k₀
    · subst hk; simp [jsSet, jsGet]
    · simp [jsSet, jsGet, hk, ih]
      by_cases h : (jsGet k rest).isSome <;> simp [h]

/-- A key is present exactly when `jsGet` finds it. -/
theorem jsGet_isSome_iff_mem {α β : Type} [DecidableEq α] (k : α)
    (m : List (α × β)) :
    (jsGet k m).isSome ↔ k ∈ m.map Prod.fst := by
  induction m with
  | nil => simp [jsGet]
  | cons p rest ih =>
    obtain ⟨k₀, v₀⟩ := p
    by_cases hk : k = k₀ <;> simp [jsGet, hk, ih]

theorem jsSet_keys_nodup {α β : Type} [DecidableEq α] (k : α) (v : β)
    (m : List (α × β)) (h : (m.map Prod.fst).Nodup) :
    ((jsSet k v m).map Prod.fst).Nodup := by
  rw [jsSet_keys]
  by_cases hs : (jsGet k m).isSome
  · simpa [hs] using h
  · have hk : k ∉ m.map Prod.fst := fun hmem =>
      hs ((jsGet_isSome_iff_mem k m).mpr hmem)
    simp [hs, List.nodup_append, h, hk]

theorem toIdx_ofIdx (i : ℕ) : toIdx (ofIdx i) = i := by
  unfold toIdx ofIdx
  simp only
  omega

theorem ofIdx_toIdx (k : MonthKey) (h : mkValid k) : ofIdx (toIdx k) = k := by
  obtain ⟨y, m⟩ := k
  obtain ⟨h1, h2⟩ := h
  unfold ofIdx toIdx
  simp only at *
  congr 1 <;> omega

theorem mkLe_iff_toIdx (a b : MonthKey) (ha : mkValid a) (hb : mkValid b) :
    mkLe a b ↔ toIdx a ≤ toIdx b := by
  obtain ⟨ay, am⟩ := a; obtain ⟨by', bm⟩ := b
  obtain ⟨ha1, ha2⟩ := ha; obtain ⟨hb1, hb2⟩ := hb
  unfold mkLe toIdx
  simp only at *
  omega

@[simp]
theorem monthRow_month (monthMap : List (MonthKey × Bucket))
    (accounts : List AccountInfo) (mo : MonthKey) :
    (monthRow monthMap accounts mo).month = mo := rfl

theorem mem_keys_jsSet {α β : Type} [DecidableEq α] (k k₀ : α) (v : β)
    (m : List (α × β)) :
    k ∈ (jsSet k₀ v m).map Prod.fst ↔ k ∈ m.map Prod.fst ∨ k = k₀ := by
  rw [jsSet_keys]
  by_cases hs : (jsGet k₀ m).isSome
  · rw [if_pos hs]
    have hk : k₀ ∈ m.map Prod.fst := (jsGet_isSome_iff_mem k₀ m).mp hs
    constructor
    · exact Or.inl
    · rintro (h | rfl) <;> assumption
  · rw [if_neg hs]
    simp [List.mem_append]

theorem foldRecord_keys (st : AggState) (r : ChartRec) (k : MonthKey) :
    k ∈ (foldRecord st r).1.map Prod.fst ↔
      k ∈ st.1.map Prod.fst ∨ r.transaction_date = some k := by
  unfold foldRecord
  cases hd : r.transaction_date with
  | none => simp
  | some month =>
    have key : ∀ (b : Bucket) (a : AcctSet),
        k ∈ (jsSet month b st.1, a).1.map Prod.fst ↔
          k ∈ st.1.map Prod.fst ∨ some month = some k := by
      intro b a
      simp only [mem_keys_jsSet, Option.some_inj]
      constructor
      · rintro (h | rfl)
        · exact Or.inl h
        · exact Or.inr rfl
      · rintro (h | h)
        · exact Or.inl h
        · exact Or.inr h.symm
    split_ifs with h1 h2 <;> exact key _ _

theorem foldl_keys (records : List ChartRec) (st : AggState) (k : MonthKey) :
    k ∈ (records.foldl foldRecord st).1.map Prod.fst ↔
      k ∈ st.1.map Prod.fst ∨ k ∈ datedMonths records := by
  induction records generalizing st with
  | nil => simp [datedMonths]
  | cons r rest ih =>
    rw [List.foldl_cons, ih, foldRecord_keys]
    simp only [datedMonths, List.filterMap_cons]
    cases hd : r.transaction_date with
    | none => simp
    | some m =>
      simp only [List.mem_cons]
      constructor
      · rintro ((h | h) | h)
        · exact Or.inl h
        · exact Or.inr (Or.inl (Option.some_injective _ h.symm))
        · exact Or.inr (Or.inr h)
      · rintro (h | rfl | h)
        · exact Or.inl (Or.inl h)
        · exact Or.inl (Or.inr rfl)
        · exact Or.inr h

theorem keys_foldState (records : List ChartRec) (k : MonthKey) :
    k ∈ (foldState records).1.map Prod.fst ↔ k ∈ datedMonths records := by
  simpa [foldState] using foldl_keys records ([], []) k

theorem mem_dataMonthsOf (records : List ChartRec) (k : MonthKey) :
    k ∈ dataMonthsOf records ↔ k ∈ datedMonths records := by
  unfold dataMonthsOf
  rw [(List.perm_insertionSort mkLe _).mem_iff, keys_foldState]

theorem mkValid_ofIdx (i : ℕ) : mkValid (ofIdx i) := by
  unfold mkValid ofIdx
  simp only
  omega

theorem mem_monthRange (lo hi k : MonthKey) (hlo : mkValid lo)
    (hhi : mkValid hi) (hk : mkValid k) :
    k ∈ monthRange lo hi ↔ (mkLe lo k ∧ mkLe k hi) := by
  unfold monthRange
  simp only [List.mem_map, List.mem_range]
  constructor
  · rintro ⟨i, hilt, rfl⟩
    rw [mkLe_iff_toIdx _ _ hlo (mkValid_ofIdx _),
        mkLe_iff_toIdx _ _ (mkValid_ofIdx _) hhi, toIdx_ofIdx]
    omega
  · rintro ⟨h1, h2⟩
    rw [mkLe_iff_toIdx _ _ hlo hk] at h1
    rw [mkLe_iff_toIdx _ _ hk hhi] at h2
    refine ⟨toIdx k - toIdx lo, by omega, ?_⟩
    have : toIdx lo + (toIdx k - toIdx lo) = toIdx k := by omega
    rw [this, ofIdx_toIdx k hk]

theorem aggregate_eq_of_dataMonths (records : List ChartRec)
    (f : MonthKey) (rest : List MonthKey)
    (hdm : dataMonthsOf records = f :: rest) :
    aggregate records =
      ((monthRange f ((f :: rest).getLast (by simp))).map
         (monthRow (foldState records).1
            (buildAccounts (foldState records).2)),
       buildAccounts (foldState records).2) := by
  unfold aggregate
  rw [hdm]

/-- Sorted lists (with a reflexive relation): the head is below every
member. -/
theorem sorted_head_rel {α : Type} (r : α → α → Prop) [IsRefl α r]
    (a : α) (t : List α) (hs : List.Sorted r (a :: t)) :
    ∀ b ∈ a :: t, r a b := by
  intro b hb
  rcases List.mem_cons.mp hb with rfl | hb
  · exact IsRefl.refl b
  · exact (List.pairwise_cons.mp hs).1 b hb

/-- Sorted lists: every member is below the last element. -/
theorem sorted_rel_getLast {α : Type} (r : α → α → Prop) [IsRefl α r]
    (l : List α) (hs : List.Sorted r l) (hne : l ≠ []) :
    ∀ b ∈ l, r b (l.getLast hne) := by
  induction l with
  | nil => simp at hne
  | cons a t ih =>
    intro b hb
    cases t with
    | nil =>
      simp only [List.mem_singleton] at hb
      subst hb
      exact IsRefl.refl b
    | cons c t' =>
      have hlast : (a :: c :: t').getLast hne = (c :: t').getLast (by simp) :=
        List.getLast_cons (by simp)
      rw [hlast]
      rcases List.mem_cons.mp hb with rfl | hb
      · exact (List.pairwise_cons.mp hs).1 _
          (List.getLast_mem (l := c :: t') (by simp))
      · exact ih (List.pairwise_cons.mp hs).2 (by simp) b hb

/-! ## Claim C1 -/

/-- C1.  For every record set with at least one dated record (months
well-formed), the month keys produced by the aggregation are exactly every
month from the minimum record month `lo` to the maximum record month `hi`
inclusive with no gaps; every bucket row carries an entry for every known
account; a month in range without any stored bucket has every account at
0; and a record set in which no record carries a date (so no bucket, not
even an empty one, was ever created) yields the empty result with no
synthesized months. -/
theorem C1_month_keys_complete
    (records : List ChartRec) (lo hi : MonthKey)
    (hvalid : ∀ k ∈ datedMonths records, mkValid k)
    (hlo_mem : lo ∈ datedMonths records)
    (hlo_min : ∀ k ∈ datedMonths records, mkLe lo k)
    (hhi_mem : hi ∈ datedMonths records)
    (hhi_max : ∀ k ∈ datedMonths records, mkLe k hi) :
    (aggregate records).1.map MonthlyData.month = monthRange lo hi
    ∧ (∀ k, mkValid k →
        (k ∈ (aggregate records).1.map MonthlyData.month ↔
          (mkLe lo k ∧ mkLe k hi)))
    ∧ (∀ b ∈ (aggregate records).1,
        b.vals.map Prod.fst = (aggregate records).2.map AccountInfo.name)
    ∧ (∀ b ∈ (aggregate records).1,
        jsGet b.month (foldState records).1 = none →
          ∀ p ∈ b.vals, p.2 = 0)
    ∧ (∀ rs : List ChartRec, datedMonths rs = [] → aggregate rs = ([], [])) := by
  have hempty : ∀ rs : List ChartRec, datedMonths rs = [] →
      aggregate rs = ([], []) := by
    intro rs h0
    have hkeys : (foldState rs).1.map Prod.fst = [] := by
      rw [List.eq_nil_iff_forall_not_mem]
      intro k hk
      have := (keys_foldState rs k).mp hk
      rw [h0] at this
      exact absurd this (List.not_mem_nil k)
    unfold aggregate dataMonthsOf
    rw [hkeys]
    rfl
  cases hdm : dataMonthsOf records with
  | nil =>
    exfalso
    have := (mem_dataMonthsOf records lo).mpr hlo_mem
    rw [hdm] at this
    exact absurd this (List.not_mem_nil lo)
  | cons f rest =>
    have hsorted : List.Sorted mkLe (f :: rest) := by
      rw [← hdm]
      exact List.sorted_insertionSort mkLe _
    have hLne : f :: rest ≠ [] := by simp
    have hmemL : ∀ k, k ∈ f :: rest ↔ k ∈ datedMonths records := by
      intro k
      rw [← hdm, mem_dataMonthsOf]
    have hf_mem : f ∈ datedMonths records := (hmemL f).mp (by simp)
    have hlst_mem : (f :: rest).getLast hLne ∈ datedMonths records :=
      (hmemL _).mp (List.getLast_mem hLne)
    have hf_eq : f = lo :=
      IsAntisymm.antisymm f lo
        (sorted_head_rel mkLe f rest hsorted lo ((hmemL lo).mpr hlo_mem))
        (hlo_min f hf_mem)
    have hlst_eq : (f :: rest).getLast hLne = hi :=
      IsAntisymm.antisymm _ hi
        (hhi_max _ hlst_mem)
        (sorted_rel_getLast mkLe (f :: rest) hsorted hLne hi
          ((hmemL hi).mpr hhi_mem))
    have hagg := aggregate_eq_of_dataMonths records f rest hdm
    rw [hlst_eq, hf_eq] at hagg
    have h1 : (aggregate records).1.map MonthlyData.month = monthRange lo hi := by
      rw [hagg]
      rw [List.map_map,
        show (MonthlyData.month ∘
            monthRow (foldState records).1
              (buildAccounts (foldState records).2)) = id from
          funext fun mo => rfl,
        List.map_id]
    refine ⟨h1, ?_, ?_, ?_, hempty⟩
    · intro k hk
      rw [h1]
      exact mem_monthRange lo hi k (hvalid lo hlo_mem) (hvalid hi hhi_mem) hk
    · intro b hb
      rw [hagg] at hb ⊢
      obtain ⟨mo, _, rfl⟩ := List.mem_map.mp hb
      simp [monthRow, List.map_map, Function.comp]
    · intro b hb hnone p hp
      rw [hagg] at hb
      obtain ⟨mo, _, rfl⟩ := List.mem_map.mp hb
      rw [monthRow_month] at hnone
      simp only [monthRow, hnone, Option.none_bind, Option.getD_none,
        List.mem_map] at hp
      obtain ⟨acc, _, rfl⟩ := hp
      by_cases hty : acc.type = AccountType.income <;> simp [hty]

/-- Witness for C1: two records in March and May 2024 (nothing in April),
minimum month 2024-03, maximum 2024-05. -/
theorem C1_month_keys_complete_witness :
    (aggregate
        [⟨some ⟨2024, 3⟩, some 1, some "Sales", some 1000, some 80,
            none, none, none⟩,
         ⟨some ⟨2024, 5⟩, some 2, none, none, none,
            some "Supplies", some 500, none⟩]).1.map MonthlyData.month =
      monthRange ⟨2024, 3⟩ ⟨2024, 5⟩
    ∧ (∀ k, mkValid k →
        (k ∈ (aggregate
            [⟨some ⟨2024, 3⟩, some 1, some "Sales", some 1000, some 80,
                none, none, none⟩,
             ⟨some ⟨2024, 5⟩, some 2, none, none, none,
                some "Supplies", some 500, none⟩]).1.map MonthlyData.month ↔
          (mkLe ⟨2024, 3⟩ k ∧ mkLe k ⟨2024, 5⟩)))
    ∧ (∀ b ∈ (aggregate
          [⟨some ⟨2024, 3⟩, some 1, some "Sales", some 1000, some 80,
              none, none, none⟩,
           ⟨some ⟨2024, 5⟩, some 2, none, none, none,
              some "Supplies", some 500, none⟩]).1,
        b.vals.map Prod.fst =
          (aggregate
            [⟨some ⟨2024, 3⟩, some 1, some "Sales", some 1000, some 80,
                none, none, none⟩,
             ⟨some ⟨2024, 5⟩, some 2, none, none, none,
                some "Supplies", some 500, none⟩]).2.map AccountInfo.name)
    ∧ (∀ b ∈ (aggregate
          [⟨some ⟨2024, 3⟩, some 1, some "Sales", some 1000, some 80,
              none, none, none⟩,
           ⟨some ⟨2024, 5⟩, some 2, none, none, none,
              some "Supplies", some 500, none⟩]).1,
        jsGet b.month
          (foldState
            [⟨some ⟨2024, 3⟩, some 1, some "Sales", some 1000, some 80,
                none, none, none⟩,
             ⟨some ⟨2024, 5⟩, some 2, none, none, none,
                some "Supplies", some 500, none⟩]).1 = none →
          ∀ p ∈ b.vals, p.2 = 0)
    ∧ (∀ rs : List ChartRec, datedMonths rs = [] →
        aggregate rs = ([], [])) :=
  C1_month_keys_complete
    [⟨some ⟨2024, 3⟩, some 1, some "Sales", some 1000, some 80,
        none, none, none⟩,
     ⟨some ⟨2024, 5⟩, some 2, none, none, none,
        some "Supplies", some 500, none⟩]
    ⟨2024, 3⟩ ⟨2024, 5⟩
    (by decide) (by decide) (by decide) (by decide) (by decide)

/-! ## Bucket amounts are sums of per-record contributions -/

theorem bAmt_jsSet (b : Bucket) (k : String) (v : ℚ) (name : String) :
    bAmt (jsSet k v b) name = if name = k then v else bAmt b name := by
  unfold bAmt
  rw [jsGet_jsSet]
  by_cases h : name = k <;> simp [h]

theorem getD_jsGet_jsSet {α : Type} [DecidableEq α] (k k' : α) (v : ℚ)
    (b : List (α × ℚ)) :
    (jsGet k' (jsSet k v b)).getD 0 =
      if k' = k then v else (jsGet k' b).getD 0 := by
  rw [jsGet_jsSet]
  by_cases h : k' = k <;> simp [h]

theorem applyIncome_amt (md : Bucket) (as : AcctSet) (r : ChartRec)
    (name : String) :
    bAmt (applyIncome md as r).1 name = bAmt md name + incContrib r name := by
  unfold applyIncome incContrib bAmt
  cases hci : r.credit_item with
  | none =>
    by_cases htax : numOr0 r.credit_ct > 0 <;>
      simp only [htax, if_true, if_false, getD_jsGet_jsSet] <;>
      (try split_ifs) <;> (try simp_all [getD_jsGet_jsSet]) <;> try ring
  | some itemName =>
    by_cases hg : itemName ≠ "" ∧ numOr0 r.credit_amount > 0 <;>
      by_cases htax : numOr0 r.credit_ct > 0 <;>
        simp only [hg, htax, if_true, if_false, getD_jsGet_jsSet] <;>
        (try split_ifs) <;> (try simp_all [getD_jsGet_jsSet]) <;> try ring

theorem applyExpense_amt (md : Bucket) (as : AcctSet) (r : ChartRec)
    (name : String) :
    bAmt (applyExpense md as r).1 name = bAmt md name + expContrib r name := by
  unfold applyExpense expContrib bAmt
  cases hci : r.debit_item with
  | none =>
    by_cases htax : numOr0 r.debit_ct > 0 <;>
      simp only [htax, if_true, if_false, getD_jsGet_jsSet] <;>
      (try split_ifs) <;> (try simp_all [getD_jsGet_jsSet]) <;> try ring
  | some itemName =>
    by_cases hg : itemName ≠ "" ∧ numOr0 r.debit_amount > 0 <;>
      by_cases htax : numOr0 r.debit_ct > 0 <;>
        simp only [hg, htax, if_true, if_false, getD_jsGet_jsSet] <;>
        (try split_ifs) <;> (try simp_all [getD_jsGet_jsSet]) <;> try ring

theorem bucketAmt_jsSet (mm : List (MonthKey × Bucket)) (m : MonthKey)
    (nb : Bucket) (mo : MonthKey) (name : String) :
    bucketAmt (jsSet m nb mm) mo name =
      if mo = m then bAmt nb name else bucketAmt mm mo name := by
  unfold bucketAmt bAmt
  rw [jsGet_jsSet]
  by_cases h : mo = m <;> simp [h]

theorem bAmt_getD_bucket (mm : List (MonthKey × Bucket)) (m : MonthKey)
    (name : String) :
    bAmt ((jsGet m mm).getD []) name = bucketAmt mm m name := by
  unfold bucketAmt bAmt
  cases h : jsGet m mm <;> simp [h, jsGet]

theorem foldRecord_amt (st : AggState) (r : ChartRec) (mo : MonthKey)
    (name : String) :
    bucketAmt (foldRecord st r).1 mo name =
      bucketAmt st.1 mo name + contrib r mo name := by
  unfold foldRecord contrib
  cases hd : r.transaction_date with
  | none => simp
  | some m =>
    split_ifs <;>
      simp_all [bucketAmt_jsSet, applyIncome_amt, applyExpense_amt,
        bAmt_getD_bucket, eq_comm] <;>
      split_ifs <;> simp_all

theorem foldl_amt (records : List ChartRec) (st : AggState) (mo : MonthKey)
    (name : String) :
    bucketAmt ((records.foldl foldRecord st).1) mo name =
      bucketAmt st.1 mo name +
        (records.map (fun r => contrib r mo name)).sum := by
  induction records generalizing st with
  | nil => simp
  | cons r rest ih =>
    rw [List.foldl_cons, ih, foldRecord_amt]
    simp [add_assoc]

theorem bucketAmt_foldState (records : List ChartRec) (mo : MonthKey)
    (name : String) :
    bucketAmt (foldState records).1 mo name =
      (records.map (fun r => contrib r mo name)).sum := by
  have := foldl_amt records ([], []) mo name
  simpa [foldState, bucketAmt, jsGet] using this

/-! ## Account-set classification -/

theorem applyIncome_acct (md : Bucket) (as : AcctSet) (r : ChartRec)
    (name : String) :
    jsGet name (applyIncome md as r).2 =
      if (r.credit_item = some name ∧ name ≠ "" ∧
            numOr0 r.credit_amount > 0)
          ∨ (name = taxCollectedName ∧ numOr0 r.credit_ct > 0)
      then some AccountType.income else jsGet name as := by
  unfold applyIncome
  cases hci : r.credit_item with
  | none =>
    dsimp only
    by_cases htax : numOr0 r.credit_ct > 0
    · rw [if_pos htax]
      simp only [jsGet_jsSet]
      by_cases hn : name = taxCollectedName <;> simp [hn, htax]
    · rw [if_neg htax]
      simp [htax]
  | some itemName =>
    dsimp only
    by_cases hg : itemName ≠ "" ∧ numOr0 r.credit_amount > 0
    · rw [if_pos hg]
      by_cases htax : numOr0 r.credit_ct > 0
      · rw [if_pos htax]
        simp only [jsGet_jsSet]
        by_cases hn1 : name = taxCollectedName
        · simp [hn1, htax]
        · by_cases hn2 : name = itemName
          · subst hn2
            simp [hn1, hg.1, hg.2]
          · have hn2' : ¬ itemName = name := fun h => hn2 h.symm
            simp [hn1, hn2, hn2', htax]
      · rw [if_neg htax]
        simp only [jsGet_jsSet]
        by_cases hn2 : name = itemName
        · subst hn2
          simp [hg.1, hg.2]
        · have hn2' : ¬ itemName = name := fun h => hn2 h.symm
          simp [hn2, hn2', htax]
    · rw [if_neg hg]
      by_cases htax : numOr0 r.credit_ct > 0
      · rw [if_pos htax]
        simp only [jsGet_jsSet]
        by_cases hn1 : name = taxCollectedName
        · simp [hn1, htax]
        · have : ¬ (itemName = name ∧ name ≠ "" ∧ numOr0 r.credit_amount > 0) := by
            rintro ⟨rfl, hne, hamt⟩
            exact hg ⟨hne, hamt⟩
          simp [hn1, htax, this]
      · rw [if_neg htax]
        have : ¬ (itemName = name ∧ name ≠ "" ∧ numOr0 r.credit_amount > 0) := by
          rintro ⟨rfl, hne, hamt⟩
          exact hg ⟨hne, hamt⟩
        simp [htax, this]

theorem applyExpense_acct (md : Bucket) (as : AcctSet) (r : ChartRec)
    (name : String) :
    jsGet name (applyExpense md as r).2 =
      if (r.debit_item = some name ∧ name ≠ "" ∧
            numOr0 r.debit_amount > 0)
          ∨ (name = taxPaidName ∧ numOr0 r.debit_ct > 0)
      then some AccountType.expense else jsGet name as := by
  unfold applyExpense
  cases hci : r.debit_item with
  | none =>
    dsimp only
    by_cases htax : numOr0 r.debit_ct > 0
    · rw [if_pos htax]
      simp only [jsGet_jsSet]
      by_cases hn : name = taxPaidName <;> simp [hn, htax]
    · rw [if_neg htax]
      simp [htax]
  | some itemName =>
    dsimp only
    by_cases hg : itemName ≠ "" ∧ numOr0 r.debit_amount > 0
    · rw [if_pos hg]
      by_cases htax : numOr0 r.debit_ct > 0
      · rw [if_pos htax]
        simp only [jsGet_jsSet]
        by_cases hn1 : name = taxPaidName
        · simp [hn1, htax]
        · by_cases hn2 : name = itemName
          · subst hn2
            simp [hn1, hg.1, hg.2]
          · have hn2' : ¬ itemName = name := fun h => hn2 h.symm
            simp [hn1, hn2, hn2', htax]
      · rw [if_neg htax]
        simp only [jsGet_jsSet]
        by_cases hn2 : name = itemName
        · subst hn2
          simp [hg.1, hg.2]
        · have hn2' : ¬ itemName = name := fun h => hn2 h.symm
          simp [hn2, hn2', htax]
    · rw [if_neg hg]
      by_cases htax : numOr0 r.debit_ct > 0
      · rw [if_pos htax]
        simp only [jsGet_jsSet]
        by_cases hn1 : name = taxPaidName
        · simp [hn1, htax]
        · have : ¬ (itemName = name ∧ name ≠ "" ∧ numOr0 r.debit_amount > 0) := by
            rintro ⟨rfl, hne, hamt⟩
            exact hg ⟨hne, hamt⟩
          simp [hn1, htax, this]
      · rw [if_neg htax]
        have : ¬ (itemName = name ∧ name ≠ "" ∧ numOr0 r.debit_amount > 0) := by
          rintro ⟨rfl, hne, hamt⟩
          exact hg ⟨hne, hamt⟩
        simp [htax, this]

theorem foldRecord_acct (st : AggState) (r : ChartRec) (name : String) :
    jsGet name (foldRecord st r).2 =
      if postsIncome r name then some AccountType.income
      else if postsExpense r name then some AccountType.expense
      else jsGet name st.2 := by
  cases hd : r.transaction_date with
  | none =>
    have hni : ¬ postsIncome r name := by unfold postsIncome; rw [hd]; simp
    have hne : ¬ postsExpense r name := by unfold postsExpense; rw [hd]; simp
    unfold foldRecord
    rw [hd, if_neg hni, if_neg hne]
  | some m =>
    unfold foldRecord
    rw [hd]
    dsimp only
    by_cases h1 : r.transaction_type = some 1
    · rw [if_pos h1, applyIncome_acct]
      have hp : postsIncome r name ↔
          ((r.credit_item = some name ∧ name ≠ "" ∧
              numOr0 r.credit_amount > 0)
           ∨ (name = taxCollectedName ∧ numOr0 r.credit_ct > 0)) := by
        unfold postsIncome
        rw [hd, h1]
        simp
      have hnexp : ¬ postsExpense r name := by
        unfold postsExpense
        rw [h1]
        simp
      by_cases hc : (r.credit_item = some name ∧ name ≠ "" ∧
            numOr0 r.credit_amount > 0)
          ∨ (name = taxCollectedName ∧ numOr0 r.credit_ct > 0)
      · rw [if_pos hc, if_pos (hp.mpr hc)]
      · rw [if_neg hc, if_neg (fun h => hc (hp.mp h)), if_neg hnexp]
    · by_cases h2 : r.transaction_type = some 2
      · rw [if_neg h1, if_pos h2, applyExpense_acct]
        have hp : postsExpense r name ↔
            ((r.debit_item = some name ∧ name ≠ "" ∧
                numOr0 r.debit_amount > 0)
             ∨ (name = taxPaidName ∧ numOr0 r.debit_ct > 0)) := by
          unfold postsExpense
          rw [hd, h2]
          simp
        have hni : ¬ postsIncome r name := by
          unfold postsIncome
          rw [h2]
          simp
        by_cases hc : (r.debit_item = some name ∧ name ≠ "" ∧
              numOr0 r.debit_amount > 0)
            ∨ (name = taxPaidName ∧ numOr0 r.debit_ct > 0)
        · rw [if_pos hc, if_neg hni, if_pos (hp.mpr hc)]
        · rw [if_neg hc, if_neg hni, if_neg (fun h => hc (hp.mp h))]
      · have hni : ¬ postsIncome r name := by
          unfold postsIncome
          simp [h1]
        have hne : ¬ postsExpense r name := by
          unfold postsExpense
          simp [h2]
        rw [if_neg h1, if_neg h2, if_neg hni, if_neg hne]

theorem foldl_acct_income (records : List ChartRec) (st : AggState)
    (name : String)
    (hne : ∀ r ∈ records, ¬ postsExpense r name) :
    jsGet name ((records.foldl foldRecord st).2) =
      if ∃ r ∈ records, postsIncome r name then some AccountType.income
      else jsGet name st.2 := by
  induction records generalizing st with
  | nil => simp
  | cons r rest ih =>
    rw [List.foldl_cons,
      ih _ (fun x hx => hne x (List.mem_cons_of_mem r hx)),
      foldRecord_acct]
    have hr : ¬ postsExpense r name := hne r (List.mem_cons_self r rest)
    by_cases hex : ∃ x ∈ rest, postsIncome x name
    · simp [hex]
    · by_cases hri : postsIncome r name <;> simp [hex, hri, hr]

theorem foldl_acct_expense (records : List ChartRec) (st : AggState)
    (name : String)
    (hne : ∀ r ∈ records, ¬ postsIncome r name) :
    jsGet name ((records.foldl foldRecord st).2) =
      if ∃ r ∈ records, postsExpense r name then some AccountType.expense
      else jsGet name st.2 := by
  induction records generalizing st with
  | nil => simp
  | cons r rest ih =>
    rw [List.foldl_cons,
      ih _ (fun x hx => hne x (List.mem_cons_of_mem r hx)),
      foldRecord_acct]
    have hr : ¬ postsIncome r name := hne r (List.mem_cons_self r rest)
    by_cases hex : ∃ x ∈ rest, postsExpense x name
    · simp [hex]
    · by_cases hre : postsExpense r name <;> simp [hex, hre, hr]

theorem acct_income_iff (records : List ChartRec) (name : String)
    (H : (∃ r ∈ records, postsIncome r name) →
         (∃ r ∈ records, postsExpense r name) → False) :
    jsGet name (foldState records).2 = some AccountType.income ↔
      ∃ r ∈ records, postsIncome r name := by
  by_cases hex : ∃ r ∈ records, postsExpense r name
  · have hni : ¬ ∃ r ∈ records, postsIncome r name := fun hi => H hi hex
    rw [foldState, foldl_acct_expense records ([], []) name
      (fun r hr hp => hni ⟨r, hr, hp⟩)]
    simp [hex, hni, jsGet]
  · rw [foldState, foldl_acct_income records ([], []) name
      (fun r hr hp => hex ⟨r, hr, hp⟩)]
    by_cases hin : ∃ r ∈ records, postsIncome r name <;>
      simp [hin, jsGet]

theorem acct_expense_iff (records : List ChartRec) (name : String)
    (H : (∃ r ∈ records, postsIncome r name) →
         (∃ r ∈ records, postsExpense r name) → False) :
    jsGet name (foldState records).2 = some AccountType.expense ↔
      ∃ r ∈ records, postsExpense r name := by
  by_cases hex : ∃ r ∈ records, postsIncome r name
  · have hne : ¬ ∃ r ∈ records, postsExpense r name := H hex
    rw [foldState, foldl_acct_income records ([], []) name
      (fun r hr hp => hne ⟨r, hr, hp⟩)]
    simp [hex, hne, jsGet]
  · rw [foldState, foldl_acct_expense records ([], []) name
      (fun r hr hp => hex ⟨r, hr, hp⟩)]
    by_cases hin : ∃ r ∈ records, postsExpense r name <;>
      simp [hin, jsGet]

/-! ## The account list mirrors the account set -/

theorem buildAccounts_pairs (as : AcctSet) :
    (buildAccounts as).map (fun a => (a.name, a.type)) = as := by
  have key : ∀ (as : AcctSet) (acc : List AccountInfo) (i e : ℕ),
      ((as.foldl buildAccountsStep (acc, i, e)).1).map
          (fun a => (a.name, a.type)) =
        acc.map (fun a => (a.name, a.type)) ++ as := by
    intro as
    induction as with
    | nil => intro acc i e; simp
    | cons p rest ih =>
      intro acc i e
      obtain ⟨n, t⟩ := p
      cases t <;> simp [buildAccountsStep, ih]
  simpa using key as [] 0 0

theorem buildAccounts_names (as : AcctSet) :
    (buildAccounts as).map AccountInfo.name = as.map Prod.fst := by
  have := congrArg (List.map Prod.fst) (buildAccounts_pairs as)
  simpa [List.map_map, Function.comp] using this

theorem mem_buildAccounts_pair (as : AcctSet) (a : AccountInfo)
    (ha : a ∈ buildAccounts as) : (a.name, a.type) ∈ as := by
  rw [← buildAccounts_pairs as]
  exact List.mem_map_of_mem _ ha

theorem pair_mem_buildAccounts (as : AcctSet) (n : String) (t : AccountType)
    (h : (n, t) ∈ as) :
    ∃ a ∈ buildAccounts as, a.name = n ∧ a.type = t := by
  rw [← buildAccounts_pairs as] at h
  obtain ⟨a, ha, heq⟩ := List.mem_map.mp h
  exact ⟨a, ha, congrArg Prod.fst heq, congrArg Prod.snd heq⟩

/-! ## Keys of the account set stay distinct -/

theorem applyIncome_acct_nodup (md : Bucket) (as : AcctSet) (r : ChartRec)
    (h : (as.map Prod.fst).Nodup) :
    (((applyIncome md as r).2).map Prod.fst).Nodup := by
  unfold applyIncome
  cases hci : r.credit_item with
  | none =>
    dsimp only
    split_ifs <;> simp_all [jsSet_keys_nodup]
  | some itemName =>
    dsimp only
    split_ifs <;>
      first
        | exact jsSet_keys_nodup _ _ _ (jsSet_keys_nodup _ _ _ h)
        | exact jsSet_keys_nodup _ _ _ h
        | exact h

theorem applyExpense_acct_nodup (md : Bucket) (as : AcctSet) (r : ChartRec)
    (h : (as.map Prod.fst).Nodup) :
    (((applyExpense md as r).2).map Prod.fst).Nodup := by
  unfold applyExpense
  cases hci : r.debit_item with
  | none =>
    dsimp only
    split_ifs <;> simp_all [jsSet_keys_nodup]
  | some itemName =>
    dsimp only
    split_ifs <;>
      first
        | exact jsSet_keys_nodup _ _ _ (jsSet_keys_nodup _ _ _ h)
        | exact jsSet_keys_nodup _ _ _ h
        | exact h

theorem foldState_acct_nodup (records : List ChartRec) :
    (((foldState records).2).map Prod.fst).Nodup := by
  have key : ∀ (rs : List ChartRec) (st : AggState),
      (st.2.map Prod.fst).Nodup →
      (((rs.foldl foldRecord st).2).map Prod.fst).Nodup := by
    intro rs
    induction rs with
    | nil => intro st h; exact h
    | cons r rest ih =>
      intro st h
      rw [List.foldl_cons]
      refine ih _ ?_
      unfold foldRecord
      cases hd : r.transaction_date with
      | none => exact h
      | some m =>
        split_ifs with h1 h2
        · exact applyIncome_acct_nodup _ _ _ h
        · exact applyExpense_acct_nodup _ _ _ h
        · exact h
  exact key records ([], []) (by simp)

/-- In a distinct-key association list, membership and lookup agree. -/
theorem mem_iff_jsGet {α β : Type} [DecidableEq α] (m : List (α × β))
    (hnd : (m.map Prod.fst).Nodup) (k : α) (v : β) :
    (k, v) ∈ m ↔ jsGet k m = some v := by
  induction m with
  | nil => simp [jsGet]
  | cons p rest ih =>
    obtain ⟨k₀, v₀⟩ := p
    simp only [List.map_cons, List.nodup_cons] at hnd
    by_cases hk : k = k₀
    · subst hk
      constructor
      · intro hmem
        rcases List.mem_cons.mp hmem with heq | hmem
        · injection heq with h1 h2
          simp [jsGet, h2]
        · exact absurd (List.mem_map_of_mem Prod.fst hmem) hnd.1
      · intro h
        simp only [jsGet, if_true, eq_self_iff_true, Option.some_inj] at h
        subst h
        exact List.mem_cons_self _ _
    · constructor
      · intro hmem
        rcases List.mem_cons.mp hmem with heq | hmem
        · exact absurd (congrArg Prod.fst heq) hk
        · simpa [jsGet, hk] using (ih hnd.2).mp hmem
      · intro h
        simp only [jsGet, if_neg hk] at h
        exact List.mem_cons_of_mem _ ((ih hnd.2).mpr h)


/-! ## Contribution arithmetic -/

theorem incContrib_nonneg (r : ChartRec) (name : String) :
    0 ≤ incContrib r name := by
  unfold incContrib
  cases r.credit_item <;>
    dsimp only <;>
    apply add_nonneg <;>
    (try split_ifs) <;>
    first | exact le_refl (0 : ℚ) | linarith

theorem expContrib_nonneg (r : ChartRec) (name : String) :
    0 ≤ expContrib r name := by
  unfold expContrib
  cases r.debit_item <;>
    dsimp only <;>
    apply add_nonneg <;>
    (try split_ifs) <;>
    first | exact le_refl (0 : ℚ) | linarith

theorem contrib_nonneg (r : ChartRec) (mo : MonthKey) (name : String) :
    0 ≤ contrib r mo name := by
  unfold contrib
  cases r.transaction_date <;> dsimp only <;> (try split_ifs) <;>
    first
      | exact le_refl (0 : ℚ)
      | exact incContrib_nonneg r name
      | exact expContrib_nonneg r name

theorem incContrib_eq_zero_of_not (r : ChartRec) (name : String)
    (h : ¬ ((r.credit_item = some name ∧ name ≠ "" ∧
              numOr0 r.credit_amount > 0)
            ∨ (name = taxCollectedName ∧ numOr0 r.credit_ct > 0))) :
    incContrib r name = 0 := by
  rw [not_or] at h
  unfold incContrib
  have hT : (if numOr0 r.credit_ct > 0 then
      (if name = taxCollectedName then numOr0 r.credit_ct else 0)
    else 0) = 0 := by
    split_ifs with h1 h2
    · exact absurd ⟨h2, h1⟩ h.2
    · rfl
    · rfl
  rw [hT, add_zero]
  cases hci : r.credit_item with
  | none => rfl
  | some itemName =>
    dsimp only
    split_ifs with h1 h2
    · exact absurd ⟨by rw [hci, h2], by rw [h2]; exact h1.1, h1.2⟩ h.1
    · rfl
    · rfl

theorem expContrib_eq_zero_of_not (r : ChartRec) (name : String)
    (h : ¬ ((r.debit_item = some name ∧ name ≠ "" ∧
              numOr0 r.debit_amount > 0)
            ∨ (name = taxPaidName ∧ numOr0 r.debit_ct > 0))) :
    expContrib r name = 0 := by
  rw [not_or] at h
  unfold expContrib
  have hT : (if numOr0 r.debit_ct > 0 then
      (if name = taxPaidName then numOr0 r.debit_ct else 0)
    else 0) = 0 := by
    split_ifs with h1 h2
    · exact absurd ⟨h2, h1⟩ h.2
    · rfl
    · rfl
  rw [hT, add_zero]
  cases hci : r.debit_item with
  | none => rfl
  | some itemName =>
    dsimp only
    split_ifs with h1 h2
    · exact absurd ⟨by rw [hci, h2], by rw [h2]; exact h1.1, h1.2⟩ h.1
    · rfl
    · rfl


/-! ## List sum helpers -/

theorem sum_eq_zero_of_forall {α : Type} (l : List α) (f : α → ℚ)
    (h : ∀ a ∈ l, f a = 0) : (l.map f).sum = 0 := by
  induction l with
  | nil => rfl
  | cons a rest ih =>
    simp only [List.map_cons, List.sum_cons]
    rw [h a (List.mem_cons_self a rest),
      ih (fun x hx => h x (List.mem_cons_of_mem a hx)), add_zero]

theorem sum_indicator_zero (l : List AccountInfo) (ty : AccountType)
    (t : String) (c : ℚ) (h : t ∉ l.map AccountInfo.name) :
    (l.map (fun acc => if acc.type = ty then
      (if acc.name = t then c else 0) else 0)).sum = 0 := by
  apply sum_eq_zero_of_forall
  intro a ha
  have hn : ¬ a.name = t := by
    intro he
    exact h (he ▸ List.mem_map_of_mem AccountInfo.name ha)
  by_cases h1 : a.type = ty
  · by_cases h2 : a.name = t
    · exact absurd h2 hn
    · simp [h1, h2]
  · simp [h1]

theorem sum_indicator_single (l : List AccountInfo)
    (hnd : (l.map AccountInfo.name).Nodup) (ty : AccountType) (t : String)
    (c : ℚ) (a₀ : AccountInfo) (ha₀ : a₀ ∈ l) (hn : a₀.name = t)
    (ht : a₀.type = ty) :
    (l.map (fun acc => if acc.type = ty then
      (if acc.name = t then c else 0) else 0)).sum = c := by
  induction l with
  | nil => cases ha₀
  | cons a rest ih =>
    simp only [List.map_cons, List.nodup_cons] at hnd
    rcases List.mem_cons.mp ha₀ with rfl | hmem
    · simp only [List.map_cons, List.sum_cons]
      rw [if_pos ht, if_pos hn,
        sum_indicator_zero rest ty t c (by rw [← hn]; exact hnd.1), add_zero]
    · have han : ¬ a.name = t := by
        intro he
        apply hnd.1
        rw [he, ← hn]
        exact List.mem_map_of_mem AccountInfo.name hmem
      simp only [List.map_cons, List.sum_cons]
      rw [ih hnd.2 hmem]
      by_cases h1 : a.type = ty
      · by_cases h2 : a.name = t
        · exact absurd h2 han
        · simp [h1, h2]
      · simp [h1]

theorem sum_map_swap {α β : Type} (l1 : List α) (l2 : List β)
    (f : α → β → ℚ) :
    (l1.map (fun a => (l2.map (f a)).sum)).sum =
      (l2.map (fun b => (l1.map (fun a => f a b)).sum)).sum := by
  induction l1 with
  | nil => simp
  | cons x rest ih =>
    simp only [List.map_cons, List.sum_cons, ih]
    rw [List.sum_map_add]

/-! ## Destructuring the aggregation result -/

theorem foldState_no_dates (records : List ChartRec)
    (h : datedMonths records = []) : foldState records = ([], []) := by
  unfold foldState
  induction records with
  | nil => rfl
  | cons r rest ih =>
    cases hd : r.transaction_date with
    | none =>
      have h' : datedMonths rest = [] := by
        unfold datedMonths at h ⊢
        rw [List.filterMap_cons, hd] at h
        exact h
      rw [List.foldl_cons]
      have hstep : foldRecord ([], []) r = ([], []) := by
        unfold foldRecord
        rw [hd]
      rw [hstep]
      exact ih h'
    | some m =>
      exfalso
      unfold datedMonths at h
      rw [List.filterMap_cons, hd] at h
      cases h

theorem aggregate_snd_eq (records : List ChartRec) :
    (aggregate records).2 = buildAccounts (foldState records).2 := by
  cases hdm : dataMonthsOf records with
  | nil =>
    have hdat : datedMonths records = [] := by
      rw [List.eq_nil_iff_forall_not_mem]
      intro k hk
      have := (mem_dataMonthsOf records k).mpr hk
      rw [hdm] at this
      exact absurd this (List.not_mem_nil k)
    have hfs := foldState_no_dates records hdat
    unfold aggregate
    rw [hdm, hfs]
    rfl
  | cons f rest =>
    rw [aggregate_eq_of_dataMonths records f rest hdm]

theorem mem_aggregate_fst (records : List ChartRec) (b : MonthlyData)
    (hb : b ∈ (aggregate records).1) :
    ∃ mo, b = monthRow (foldState records).1
      (buildAccounts (foldState records).2) mo := by
  cases hdm : dataMonthsOf records with
  | nil =>
    exfalso
    unfold aggregate at hb
    rw [hdm] at hb
    exact absurd hb (List.not_mem_nil b)
  | cons f rest =>
    rw [aggregate_eq_of_dataMonths records f rest hdm] at hb
    obtain ⟨mo, _, rfl⟩ := List.mem_map.mp hb
    exact ⟨mo, rfl⟩


/-! ## Per-record class sums -/

theorem per_record_income (records : List ChartRec)
    (H : ∀ name, (∃ x ∈ records, postsIncome x name) →
         (∃ x ∈ records, postsExpense x name) → False)
    (r : ChartRec) (hr : r ∈ records) (mo : MonthKey) :
    ((buildAccounts (foldState records).2).map
      (fun acc => if acc.type = AccountType.income
        then contrib r mo acc.name else 0)).sum = recIncomePosted r mo := by
  have hnd : ((buildAccounts (foldState records).2).map
      AccountInfo.name).Nodup := by
    rw [buildAccounts_names]
    exact foldState_acct_nodup records
  cases hd : r.transaction_date with
  | none =>
    rw [sum_eq_zero_of_forall _ _ (fun acc _ => by
      have hz : contrib r mo acc.name = 0 := by
        unfold contrib
        rw [hd]
      rw [hz, ite_self])]
    unfold recIncomePosted
    rw [hd]
  | some m =>
    by_cases hmo : m = mo
    · subst hmo
      by_cases h1 : r.transaction_type = some 1
      · have hc : ∀ name, contrib r m name = incContrib r name := by
          intro name
          unfold contrib
          rw [hd]
          dsimp only
          rw [if_pos rfl, if_pos h1]
        have hsplit :
            ((buildAccounts (foldState records).2).map
              (fun acc => if acc.type = AccountType.income
                then contrib r m acc.name else 0)).sum =
            ((buildAccounts (foldState records).2).map
              (fun acc => if acc.type = AccountType.income then
                (match r.credit_item with
                 | some it =>
                   if it ≠ "" ∧ numOr0 r.credit_amount > 0 then
                     (if acc.name = it then numOr0 r.credit_amount else 0)
                   else 0
                 | none => 0) else 0)).sum +
            ((buildAccounts (foldState records).2).map
              (fun acc => if acc.type = AccountType.income then
                (if numOr0 r.credit_ct > 0 then
                  (if acc.name = taxCollectedName then numOr0 r.credit_ct
                   else 0) else 0) else 0)).sum := by
          rw [← List.sum_map_add]
          apply congrArg List.sum
          apply List.map_congr_left
          intro acc _
          rw [hc]
          by_cases hty : acc.type = AccountType.income <;>
            simp [hty, incContrib]
        rw [hsplit]
        have hPsum :
            ((buildAccounts (foldState records).2).map
              (fun acc => if acc.type = AccountType.income then
                (match r.credit_item with
                 | some it =>
                   if it ≠ "" ∧ numOr0 r.credit_amount > 0 then
                     (if acc.name = it then numOr0 r.credit_amount else 0)
                   else 0
                 | none => 0) else 0)).sum =
            (match r.credit_item with
             | some it =>
               if it ≠ "" ∧ numOr0 r.credit_amount > 0 then
                 numOr0 r.credit_amount
               else 0
             | none => 0) := by
          cases hci : r.credit_item with
          | none =>
            apply sum_eq_zero_of_forall
            intro acc _
            simp
          | some it =>
            dsimp only
            by_cases hg : it ≠ "" ∧ numOr0 r.credit_amount > 0
            · rw [if_pos hg]
              have hpost : postsIncome r it := by
                refine ⟨by rw [hd]; rfl, h1, Or.inl ⟨hci, hg.1, hg.2⟩⟩
              have hcls : jsGet it (foldState records).2 =
                  some AccountType.income :=
                (acct_income_iff records it (H it)).mpr ⟨r, hr, hpost⟩
              have hmem : (it, AccountType.income) ∈ (foldState records).2 :=
                (mem_iff_jsGet _ (foldState_acct_nodup records) it _).mpr hcls
              obtain ⟨a₀, ha₀, hname, hty⟩ :=
                pair_mem_buildAccounts _ it _ hmem
              have hind := sum_indicator_single
                (buildAccounts (foldState records).2)
                hnd AccountType.income it (numOr0 r.credit_amount)
                a₀ ha₀ hname hty
              refine Eq.trans ?_ hind
              apply congrArg List.sum
              apply List.map_congr_left
              intro acc _
              dsimp only
              by_cases hty2 : acc.type = AccountType.income
              · rw [if_pos hty2, if_pos hty2, if_pos hg]
              · rw [if_neg hty2, if_neg hty2]
            · rw [if_neg hg]
              apply sum_eq_zero_of_forall
              intro acc _
              dsimp only
              rw [if_neg hg, ite_self]
        have hTsum :
            ((buildAccounts (foldState records).2).map
              (fun acc => if acc.type = AccountType.income then
                (if numOr0 r.credit_ct > 0 then
                  (if acc.name = taxCollectedName then numOr0 r.credit_ct
                   else 0) else 0) else 0)).sum =
            (if numOr0 r.credit_ct > 0 then numOr0 r.credit_ct else 0) := by
          by_cases htax : numOr0 r.credit_ct > 0
          · rw [if_pos htax]
            have hpost : postsIncome r taxCollectedName := by
              refine ⟨by rw [hd]; rfl, h1, Or.inr ⟨rfl, htax⟩⟩
            have hcls : jsGet taxCollectedName (foldState records).2 =
                some AccountType.income :=
              (acct_income_iff records taxCollectedName
                (H taxCollectedName)).mpr ⟨r, hr, hpost⟩
            have hmem : (taxCollectedName, AccountType.income) ∈
                (foldState records).2 :=
              (mem_iff_jsGet _ (foldState_acct_nodup records)
                taxCollectedName _).mpr hcls
            obtain ⟨a₀, ha₀, hname, hty⟩ :=
              pair_mem_buildAccounts _ taxCollectedName _ hmem
            have hind := sum_indicator_single
              (buildAccounts (foldState records).2)
              hnd AccountType.income taxCollectedName (numOr0 r.credit_ct)
              a₀ ha₀ hname hty
            refine Eq.trans ?_ hind
            apply congrArg List.sum
            apply List.map_congr_left
            intro acc _
            dsimp only
            by_cases hty2 : acc.type = AccountType.income
            · rw [if_pos hty2, if_pos hty2, if_pos htax]
            · rw [if_neg hty2, if_neg hty2]
          · rw [if_neg htax]
            apply sum_eq_zero_of_forall
            intro acc _
            rw [if_neg htax, ite_self]
        rw [hPsum, hTsum]
        unfold recIncomePosted
        rw [hd]
        dsimp only
        rw [if_pos (⟨rfl, h1⟩ : m = m ∧ r.transaction_type = some 1)]
      · by_cases h2 : r.transaction_type = some 2
        · have hc : ∀ name, contrib r m name = expContrib r name := by
            intro name
            unfold contrib
            rw [hd]
            dsimp only
            rw [if_pos rfl, if_neg h1, if_pos h2]
          rw [sum_eq_zero_of_forall _ _ (fun acc hacc => by
            by_cases hty : acc.type = AccountType.income
            · rw [if_pos hty, hc]
              apply expContrib_eq_zero_of_not
              intro hcond
              have hpost : postsExpense r acc.name :=
                ⟨by rw [hd]; rfl, h2, hcond⟩
              have hmemp : (acc.name, acc.type) ∈ (foldState records).2 :=
                mem_buildAccounts_pair _ acc hacc
              rw [hty] at hmemp
              have hcls : jsGet acc.name (foldState records).2 =
                  some AccountType.income :=
                (mem_iff_jsGet _ (foldState_acct_nodup records) _ _).mp hmemp
              have hex : ∃ x ∈ records, postsIncome x acc.name :=
                (acct_income_iff records acc.name (H acc.name)).mp hcls
              exact H acc.name hex ⟨r, hr, hpost⟩
            · rw [if_neg hty])]
          unfold recIncomePosted
          rw [hd]
          dsimp only
          rw [if_neg
            (fun hcon : m = m ∧ r.transaction_type = some 1 => h1 hcon.2)]
        · rw [sum_eq_zero_of_forall _ _ (fun acc _ => by
            have hz : contrib r m acc.name = 0 := by
              unfold contrib
              rw [hd]
              dsimp only
              rw [if_pos rfl, if_neg h1, if_neg h2]
            rw [hz, ite_self])]
          unfold recIncomePosted
          rw [hd]
          dsimp only
          rw [if_neg
            (fun hcon : m = m ∧ r.transaction_type = some 1 => h1 hcon.2)]
    · rw [sum_eq_zero_of_forall _ _ (fun acc _ => by
        have hz : contrib r mo acc.name = 0 := by
          unfold contrib
          rw [hd]
          dsimp only
          rw [if_neg hmo]
        rw [hz, ite_self])]
      unfold recIncomePosted
      rw [hd]
      dsimp only
      rw [if_neg
        (fun hcon : m = mo ∧ r.transaction_type = some 1 => hmo hcon.1)]


theorem per_record_expense (records : List ChartRec)
    (H : ∀ name, (∃ x ∈ records, postsIncome x name) →
         (∃ x ∈ records, postsExpense x name) → False)
    (r : ChartRec) (hr : r ∈ records) (mo : MonthKey) :
    ((buildAccounts (foldState records).2).map
      (fun acc => if acc.type = AccountType.expense
        then contrib r mo acc.name else 0)).sum = recExpensePosted r mo := by
  have hnd : ((buildAccounts (foldState records).2).map
      AccountInfo.name).Nodup := by
    rw [buildAccounts_names]
    exact foldState_acct_nodup records
  cases hd : r.transaction_date with
  | none =>
    rw [sum_eq_zero_of_forall _ _ (fun acc _ => by
      have hz : contrib r mo acc.name = 0 := by
        unfold contrib
        rw [hd]
      rw [hz, ite_self])]
    unfold recExpensePosted
    rw [hd]
  | some m =>
    by_cases hmo : m = mo
    · subst hmo
      by_cases h2 : r.transaction_type = some 2
      · have h1' : ¬ r.transaction_type = some 1 := by
          rw [h2]
          simp
        have hc : ∀ name, contrib r m name = expContrib r name := by
          intro name
          unfold contrib
          rw [hd]
          dsimp only
          rw [if_pos rfl, if_neg h1', if_pos h2]
        have hsplit :
            ((buildAccounts (foldState records).2).map
              (fun acc => if acc.type = AccountType.expense
                then contrib r m acc.name else 0)).sum =
            ((buildAccounts (foldState records).2).map
              (fun acc => if acc.type = AccountType.expense then
                (match r.debit_item with
                 | some it =>
                   if it ≠ "" ∧ numOr0 r.debit_amount > 0 then
                     (if acc.name = it then numOr0 r.debit_amount else 0)
                   else 0
                 | none => 0) else 0)).sum +
            ((buildAccounts (foldState records).2).map
              (fun acc => if acc.type = AccountType.expense then
                (if numOr0 r.debit_ct > 0 then
                  (if acc.name = taxPaidName then numOr0 r.debit_ct
                   else 0) else 0) else 0)).sum := by
          rw [← List.sum_map_add]
          apply congrArg List.sum
          apply List.map_congr_left
          intro acc _
          rw [hc]
          by_cases hty : acc.type = AccountType.expense <;>
            simp [hty, expContrib]
        rw [hsplit]
        have hPsum :
            ((buildAccounts (foldState records).2).map
              (fun acc => if acc.type = AccountType.expense then
                (match r.debit_item with
                 | some it =>
                   if it ≠ "" ∧ numOr0 r.debit_amount > 0 then
                     (if acc.name = it then numOr0 r.debit_amount else 0)
                   else 0
                 | none => 0) else 0)).sum =
            (match r.debit_item with
             | some it =>
               if it ≠ "" ∧ numOr0 r.debit_amount > 0 then
                 numOr0 r.debit_amount
               else 0
             | none => 0) := by
          cases hci : r.debit_item with
          | none =>
            apply sum_eq_zero_of_forall
            intro acc _
            simp
          | some it =>
            dsimp only
            by_cases hg : it ≠ "" ∧ numOr0 r.debit_amount > 0
            · rw [if_pos hg]
              have hpost : postsExpense r it := by
                refine ⟨by rw [hd]; rfl, h2, Or.inl ⟨hci, hg.1, hg.2⟩⟩
              have hcls : jsGet it (foldState records).2 =
                  some AccountType.expense :=
                (acct_expense_iff records it (H it)).mpr ⟨r, hr, hpost⟩
              have hmem : (it, AccountType.expense) ∈ (foldState records).2 :=
                (mem_iff_jsGet _ (foldState_acct_nodup records) it _).mpr hcls
              obtain ⟨a₀, ha₀, hname, hty⟩ :=
                pair_mem_buildAccounts _ it _ hmem
              have hind := sum_indicator_single
                (buildAccounts (foldState records).2)
                hnd AccountType.expense it (numOr0 r.debit_amount)
                a₀ ha₀ hname hty
              refine Eq.trans ?_ hind
              apply congrArg List.sum
              apply List.map_congr_left
              intro acc _
              dsimp only
              by_cases hty2 : acc.type = AccountType.expense
              · rw [if_pos hty2, if_pos hty2, if_pos hg]
              · rw [if_neg hty2, if_neg hty2]
            · rw [if_neg hg]
              apply sum_eq_zero_of_forall
              intro acc _
              dsimp only
              rw [if_neg hg, ite_self]
        have hTsum :
            ((buildAccounts (foldState records).2).map
              (fun acc => if acc.type = AccountType.expense then
                (if numOr0 r.debit_ct > 0 then
                  (if acc.name = taxPaidName then numOr0 r.debit_ct
                   else 0) else 0) else 0)).sum =
            (if numOr0 r.debit_ct > 0 then numOr0 r.debit_ct else 0) := by
          by_cases htax : numOr0 r.debit_ct > 0
          · rw [if_pos htax]
            have hpost : postsExpense r taxPaidName := by
              refine ⟨by rw [hd]; rfl, h2, Or.inr ⟨rfl, htax⟩⟩
            have hcls : jsGet taxPaidName (foldState records).2 =
                some AccountType.expense :=
              (acct_expense_iff records taxPaidName
                (H taxPaidName)).mpr ⟨r, hr, hpost⟩
            have hmem : (taxPaidName, AccountType.expense) ∈
                (foldState records).2 :=
              (mem_iff_jsGet _ (foldState_acct_nodup records)
                taxPaidName _).mpr hcls
            obtain ⟨a₀, ha₀, hname, hty⟩ :=
              pair_mem_buildAccounts _ taxPaidName _ hmem
            have hind := sum_indicator_single
              (buildAccounts (foldState records).2)
              hnd AccountType.expense taxPaidName (numOr0 r.debit_ct)
              a₀ ha₀ hname hty
            refine Eq.trans ?_ hind
            apply congrArg List.sum
            apply List.map_congr_left
            intro acc _
            dsimp only
            by_cases hty2 : acc.type = AccountType.expense
            · rw [if_pos hty2, if_pos hty2, if_pos htax]
            · rw [if_neg hty2, if_neg hty2]
          · rw [if_neg htax]
            apply sum_eq_zero_of_forall
            intro acc _
            rw [if_neg htax, ite_self]
        rw [hPsum, hTsum]
        unfold recExpensePosted
        rw [hd]
        dsimp only
        rw [if_pos (⟨rfl, h2⟩ : m = m ∧ r.transaction_type = some 2)]
      · by_cases h1 : r.transaction_type = some 1
        · have hc : ∀ name, contrib r m name = incContrib r name := by
            intro name
            unfold contrib
            rw [hd]
            dsimp only
            rw [if_pos rfl, if_pos h1]
          rw [sum_eq_zero_of_forall _ _ (fun acc hacc => by
            by_cases hty : acc.type = AccountType.expense
            · rw [if_pos hty, hc]
              apply incContrib_eq_zero_of_not
              intro hcond
              have hpost : postsIncome r acc.name :=
                ⟨by rw [hd]; rfl, h1, hcond⟩
              have hmemp : (acc.name, acc.type) ∈ (foldState records).2 :=
                mem_buildAccounts_pair _ acc hacc
              rw [hty] at hmemp
              have hcls : jsGet acc.name (foldState records).2 =
                  some AccountType.expense :=
                (mem_iff_jsGet _ (foldState_acct_nodup records) _ _).mp hmemp
              have hex : ∃ x ∈ records, postsExpense x acc.name :=
                (acct_expense_iff records acc.name (H acc.name)).mp hcls
              exact H acc.name ⟨r, hr, hpost⟩ hex
            · rw [if_neg hty])]
          unfold recExpensePosted
          rw [hd]
          dsimp only
          rw [if_neg
            (fun hcon : m = m ∧ r.transaction_type = some 2 => h2 hcon.2)]
        · rw [sum_eq_zero_of_forall _ _ (fun acc _ => by
            have hz : contrib r m acc.name = 0 := by
              unfold contrib
              rw [hd]
              dsimp only
              rw [if_pos rfl, if_neg h1, if_neg h2]
            rw [hz, ite_self])]
          unfold recExpensePosted
          rw [hd]
          dsimp only
          rw [if_neg
            (fun hcon : m = m ∧ r.transaction_type = some 2 => h2 hcon.2)]
    · rw [sum_eq_zero_of_forall _ _ (fun acc _ => by
        have hz : contrib r mo acc.name = 0 := by
          unfold contrib
          rw [hd]
          dsimp only
          rw [if_neg hmo]
        rw [hz, ite_self])]
      unfold recExpensePosted
      rw [hd]
      dsimp only
      rw [if_neg
        (fun hcon : m = mo ∧ r.transaction_type = some 2 => hmo hcon.1)]


/-! ## Claim C2 -/

/-- C2.  In every monthly bucket, amounts of income-classified accounts
are stored non-negative and amounts of expense-classified accounts
non-positive (income above the zero line, expense below), and the sum of
the positive entries equals the total income posted that month while the
sum of the absolute values of the negative entries equals the total
expense posted that month.  Hypothesis `H`: no account name is posted
under both classifications in the run (the spec's stable-classification
invariant). -/
theorem C2_bucket_sign_and_totals (records : List ChartRec)
    (H : ∀ name, (∃ x ∈ records, postsIncome x name) →
         (∃ x ∈ records, postsExpense x name) → False) :
    ∀ b ∈ (aggregate records).1,
      (∀ acc ∈ (aggregate records).2, ∀ v, (acc.name, v) ∈ b.vals →
        (acc.type = AccountType.income → 0 ≤ v) ∧
        (acc.type = AccountType.expense → v ≤ 0))
      ∧ sumPos b.vals = incomeTotal records b.month
      ∧ sumNegAbs b.vals = expenseTotal records b.month := by
  intro b hb
  obtain ⟨mo, rfl⟩ := mem_aggregate_fst records b hb
  have hnd : ((buildAccounts (foldState records).2).map
      AccountInfo.name).Nodup := by
    rw [buildAccounts_names]
    exact foldState_acct_nodup records
  have hA : ∀ name : String,
      ((jsGet mo (foldState records).1).bind (jsGet name)).getD 0 =
        (records.map (fun r => contrib r mo name)).sum := by
    intro name
    exact bucketAmt_foldState records mo name
  have hAnn : ∀ name : String,
      0 ≤ ((jsGet mo (foldState records).1).bind (jsGet name)).getD 0 := by
    intro name
    rw [hA]
    apply List.sum_nonneg
    intro x hx
    obtain ⟨r, _, rfl⟩ := List.mem_map.mp hx
    exact contrib_nonneg r mo name
  refine ⟨?_, ?_, ?_⟩
  · intro acc hacc v hv
    rw [aggregate_snd_eq] at hacc
    unfold monthRow at hv
    dsimp only at hv
    obtain ⟨acc', hacc', heq⟩ := List.mem_map.mp hv
    have hname : acc'.name = acc.name := congrArg Prod.fst heq
    have hveq : (if acc'.type = AccountType.income
        then ((jsGet mo (foldState records).1).bind (jsGet acc'.name)).getD 0
        else -(((jsGet mo (foldState records).1).bind
            (jsGet acc'.name)).getD 0)) = v := congrArg Prod.snd heq
    have haccs : acc' = acc :=
      List.inj_on_of_nodup_map hnd hacc' hacc hname
    subst haccs
    constructor
    · intro hty
      rw [← hveq, if_pos hty]
      exact hAnn acc'.name
    · intro hty
      have hty' : ¬ acc'.type = AccountType.income := by
        rw [hty]
        simp
      rw [← hveq, if_neg hty']
      exact neg_nonpos_of_nonneg (hAnn acc'.name)
  · rw [monthRow_month]
    unfold sumPos monthRow
    dsimp only
    rw [List.map_map]
    have hstep1 :
        ((buildAccounts (foldState records).2).map
          ((fun p : String × ℚ => if p.2 > 0 then p.2 else 0) ∘
            (fun acc => (acc.name,
              if acc.type = AccountType.income
              then ((jsGet mo (foldState records).1).bind
                  (jsGet acc.name)).getD 0
              else -(((jsGet mo (foldState records).1).bind
                  (jsGet acc.name)).getD 0))))).sum =
        ((buildAccounts (foldState records).2).map
          (fun acc => if acc.type = AccountType.income
            then ((jsGet mo (foldState records).1).bind
                (jsGet acc.name)).getD 0
            else 0)).sum := by
      apply congrArg List.sum
      apply List.map_congr_left
      intro acc _
      dsimp only [Function.comp]
      by_cases hty : acc.type = AccountType.income
      · rw [if_pos hty, if_pos hty]
        rcases lt_or_eq_of_le (hAnn acc.name) with hlt | heq0
        · rw [if_pos hlt]
        · rw [if_neg (by rw [← heq0]; exact lt_irrefl 0), ← heq0]
      · rw [if_neg hty, if_neg hty]
        rw [if_neg (not_lt.mpr (neg_nonpos_of_nonneg (hAnn acc.name)))]
    rw [hstep1]
    have hstep2 :
        ((buildAccounts (foldState records).2).map
          (fun acc => if acc.type = AccountType.income
            then ((jsGet mo (foldState records).1).bind
                (jsGet acc.name)).getD 0
            else 0)).sum =
        ((buildAccounts (foldState records).2).map
          (fun acc => (records.map (fun r =>
            if acc.type = AccountType.income
            then contrib r mo acc.name else 0)).sum)).sum := by
      apply congrArg List.sum
      apply List.map_congr_left
      intro acc _
      by_cases hty : acc.type = AccountType.income
      · rw [if_pos hty, hA]
        apply congrArg List.sum
        apply List.map_congr_left
        intro r _
        rw [if_pos hty]
      · rw [if_neg hty]
        symm
        apply sum_eq_zero_of_forall
        intro r _
        rw [if_neg hty]
    rw [hstep2, sum_map_swap]
    unfold incomeTotal
    apply congrArg List.sum
    apply List.map_congr_left
    intro r hr
    exact per_record_income records H r hr mo
  · rw [monthRow_month]
    unfold sumNegAbs monthRow
    dsimp only
    rw [List.map_map]
    have hstep1 :
        ((buildAccounts (foldState records).2).map
          ((fun p : String × ℚ => if p.2 < 0 then -p.2 else 0) ∘
            (fun acc => (acc.name,
              if acc.type = AccountType.income
              then ((jsGet mo (foldState records).1).bind
                  (jsGet acc.name)).getD 0
              else -(((jsGet mo (foldState records).1).bind
                  (jsGet acc.name)).getD 0))))).sum =
        ((buildAccounts (foldState records).2).map
          (fun acc => if acc.type = AccountType.expense
            then ((jsGet mo (foldState records).1).bind
                (jsGet acc.name)).getD 0
            else 0)).sum := by
      apply congrArg List.sum
      apply List.map_congr_left
      intro acc _
      dsimp only [Function.comp]
      by_cases hty : acc.type = AccountType.income
      · have hty' : ¬ acc.type = AccountType.expense := by
          rw [hty]
          simp
        rw [if_pos hty, if_neg hty']
        rw [if_neg (not_lt.mpr (hAnn acc.name))]
      · have hty' : acc.type = AccountType.expense := by
          cases hcc : acc.type
          · exact absurd hcc hty
          · rfl
        rw [if_neg hty, if_pos hty']
        rcases lt_or_eq_of_le (hAnn acc.name) with hlt | heq0
        · rw [if_pos (neg_neg_of_pos hlt), neg_neg]
        · rw [← heq0]
          simp
    rw [hstep1]
    have hstep2 :
        ((buildAccounts (foldState records).2).map
          (fun acc => if acc.type = AccountType.expense
            then ((jsGet mo (foldState records).1).bind
                (jsGet acc.name)).getD 0
            else 0)).sum =
        ((buildAccounts (foldState records).2).map
          (fun acc => (records.map (fun r =>
            if acc.type = AccountType.expense
            then contrib r mo acc.name else 0)).sum)).sum := by
      apply congrArg List.sum
      apply List.map_congr_left
      intro acc _
      by_cases hty : acc.type = AccountType.expense
      · rw [if_pos hty, hA]
        apply congrArg List.sum
        apply List.map_congr_left
        intro r _
        rw [if_pos hty]
      · rw [if_neg hty]
        symm
        apply sum_eq_zero_of_forall
        intro r _
        rw [if_neg hty]
    rw [hstep2, sum_map_swap]
    unfold expenseTotal
    apply congrArg List.sum
    apply List.map_congr_left
    intro r hr
    exact per_record_expense records H r hr mo


/-! ## Checkable form of the no-mixed-classification hypothesis -/

theorem postsIncome_name_mem (r : ChartRec) (name : String)
    (h : postsIncome r name) : name ∈ postedIncomeNames r := by
  obtain ⟨_, _, hcase⟩ := h
  unfold postedIncomeNames
  rcases hcase with ⟨hci, _, _⟩ | ⟨rfl, _⟩
  · rw [hci]
    simp
  · simp

theorem disjoint_of_checked (records : List ChartRec)
    (h : ∀ r1 ∈ records, ∀ name ∈ postedIncomeNames r1,
        postsIncome r1 name → ∀ r2 ∈ records, ¬ postsExpense r2 name) :
    ∀ name, (∃ x ∈ records, postsIncome x name) →
        (∃ x ∈ records, postsExpense x name) → False := by
  rintro name ⟨r1, hr1, hp1⟩ ⟨r2, hr2, hp2⟩
  exact h r1 hr1 name (postsIncome_name_mem r1 name hp1) hp1 r2 hr2 hp2

/-- Witness for C2: one inbound record (Sales 1000, tax 80) and one
outbound record (Supplies 500) in 2024-03: in the resulting 2024-03
bucket row (`Sales: +1000, 仮受消費税: +80, Supplies: -500`) income
entries are nonnegative, expense entries nonpositive, and the class
sums match the posted totals (1080 and 500). -/
theorem C2_bucket_sign_and_totals_witness :
    (∀ acc ∈ (aggregate
      [⟨some ⟨2024, 3⟩, some 1, some "Sales", some 1000, some 80,
          none, none, none⟩,
       ⟨some ⟨2024, 3⟩, some 2, none, none, none,
          some "Supplies", some 500, none⟩]).2, ∀ v,
        (acc.name, v) ∈ (monthRow (foldState
          [⟨some ⟨2024, 3⟩, some 1, some "Sales", some 1000, some 80,
              none, none, none⟩,
           ⟨some ⟨2024, 3⟩, some 2, none, none, none,
              some "Supplies", some 500, none⟩]).1
          (buildAccounts (foldState
            [⟨some ⟨2024, 3⟩, some 1, some "Sales", some 1000, some 80,
                none, none, none⟩,
             ⟨some ⟨2024, 3⟩, some 2, none, none, none,
                some "Supplies", some 500, none⟩]).2) ⟨2024, 3⟩).vals →
      (acc.type = AccountType.income → 0 ≤ v) ∧
      (acc.type = AccountType.expense → v ≤ 0))
    ∧ sumPos (monthRow (foldState
          [⟨some ⟨2024, 3⟩, some 1, some "Sales", some 1000, some 80,
              none, none, none⟩,
           ⟨some ⟨2024, 3⟩, some 2, none, none, none,
              some "Supplies", some 500, none⟩]).1
          (buildAccounts (foldState
            [⟨some ⟨2024, 3⟩, some 1, some "Sales", some 1000, some 80,
                none, none, none⟩,
             ⟨some ⟨2024, 3⟩, some 2, none, none, none,
                some "Supplies", some 500, none⟩]).2) ⟨2024, 3⟩).vals =
      incomeTotal
        [⟨some ⟨2024, 3⟩, some 1, some "Sales", some 1000, some 80,
            none, none, none⟩,
         ⟨some ⟨2024, 3⟩, some 2, none, none, none,
            some "Supplies", some 500, none⟩]
        (monthRow (foldState
          [⟨some ⟨2024, 3⟩, some 1, some "Sales", some 1000, some 80,
              none, none, none⟩,
           ⟨some ⟨2024, 3⟩, some 2, none, none, none,
              some "Supplies", some 500, none⟩]).1
          (buildAccounts (foldState
            [⟨some ⟨2024, 3⟩, some 1, some "Sales", some 1000, some 80,
                none, none, none⟩,
             ⟨some ⟨2024, 3⟩, some 2, none, none, none,
                some "Supplies", some 500, none⟩]).2) ⟨2024, 3⟩).month
    ∧ sumNegAbs (monthRow (foldState
          [⟨some ⟨2024, 3⟩, some 1, some "Sales", some 1000, some 80,
              none, none, none⟩,
           ⟨some ⟨2024, 3⟩, some 2, none, none, none,
              some "Supplies", some 500, none⟩]).1
          (buildAccounts (foldState
            [⟨some ⟨2024, 3⟩, some 1, some "Sales", some 1000, some 80,
                none, none, none⟩,
             ⟨some ⟨2024, 3⟩, some 2, none, none, none,
                some "Supplies", some 500, none⟩]).2) ⟨2024, 3⟩).vals =
      expenseTotal
        [⟨some ⟨2024, 3⟩, some 1, some "Sales", some 1000, some 80,
            none, none, none⟩,
         ⟨some ⟨2024, 3⟩, some 2, none, none, none,
            some "Supplies", some 500, none⟩]
        (monthRow (foldState
          [⟨some ⟨2024, 3⟩, some 1, some "Sales", some 1000, some 80,
              none, none, none⟩,
           ⟨some ⟨2024, 3⟩, some 2, none, none, none,
              some "Supplies", some 500, none⟩]).1
          (buildAccounts (foldState
            [⟨some ⟨2024, 3⟩, some 1, some "Sales", some 1000, some 80,
                none, none, none⟩,
             ⟨some ⟨2024, 3⟩, some 2, none, none, none,
                some "Supplies", some 500, none⟩]).2) ⟨2024, 3⟩).month :=
  C2_bucket_sign_and_totals
    [⟨some ⟨2024, 3⟩, some 1, some "Sales", some 1000, some 80,
        none, none, none⟩,
     ⟨some ⟨2024, 3⟩, some 2, none, none, none,
        some "Supplies", some 500, none⟩]
    (disjoint_of_checked _ (by decide))
    (monthRow (foldState
      [⟨some ⟨2024, 3⟩, some 1, some "Sales", some 1000, some 80,
          none, none, none⟩,
       ⟨some ⟨2024, 3⟩, some 2, none, none, none,
          some "Supplies", some 500, none⟩]).1
      (buildAccounts (foldState
        [⟨some ⟨2024, 3⟩, some 1, some "Sales", some 1000, some 80,
            none, none, none⟩,
         ⟨some ⟨2024, 3⟩, some 2, none, none, none,
            some "Supplies", some 500, none⟩]).2) ⟨2024, 3⟩)
    (by
      rw [aggregate_eq_of_dataMonths
        [⟨some ⟨2024, 3⟩, some 1, some "Sales", some 1000, some 80,
            none, none, none⟩,
         ⟨some ⟨2024, 3⟩, some 2, none, none, none,
            some "Supplies", some 500, none⟩]
        ⟨2024, 3⟩ [] (by decide)]
      exact List.mem_singleton.mpr rfl)


/-! ## Claim C3 -/

theorem find?_eq_of_nodup (accounts : List AccountInfo) (acc : AccountInfo)
    (hnd : (accounts.map AccountInfo.name).Nodup) (ha : acc ∈ accounts) :
    accounts.find? (fun a => a.name = acc.name) = some acc := by
  induction accounts with
  | nil => cases ha
  | cons x rest ih =>
    simp only [List.map_cons, List.nodup_cons] at hnd
    rcases List.mem_cons.mp ha with rfl | hmem
    · rw [List.find?_cons_of_pos _ (by simp)]
    · have hx : ¬ (x.name = acc.name) := by
        intro he
        exact hnd.1 (he ▸ List.mem_map_of_mem AccountInfo.name hmem)
      rw [List.find?_cons_of_neg _ (by simp [hx]), ih hnd.2 hmem]

theorem jsRound_err (x : ℚ) : |(jsRound x : ℚ) - x| ≤ 1 / 2 := by
  unfold jsRound
  have h1 : (⌊x + 1 / 2⌋ : ℚ) ≤ x + 1 / 2 := Int.floor_le _
  have h2 : x + 1 / 2 < ⌊x + 1 / 2⌋ + 1 := Int.lt_floor_add_one _
  rw [abs_le]
  constructor <;> linarith

theorem sum_err_bound {α : Type} (l : List α) (f g : α → ℚ) (c : ℚ)
    (h : ∀ a ∈ l, |f a - g a| ≤ c) :
    |(l.map f).sum - (l.map g).sum| ≤ l.length * c := by
  induction l with
  | nil => simp
  | cons a rest ih =>
    simp only [List.map_cons, List.sum_cons, List.length_cons]
    have heq : (f a + (rest.map f).sum) - (g a + (rest.map g).sum) =
        (f a - g a) + ((rest.map f).sum - (rest.map g).sum) := by ring
    have htri := abs_add (f a - g a)
      ((rest.map f).sum - (rest.map g).sum)
    have hrest := ih (fun x hx => h x (List.mem_cons_of_mem a hx))
    have hhead := h a (List.mem_cons_self a rest)
    rw [heq]
    push_cast
    calc |(f a - g a) + ((rest.map f).sum - (rest.map g).sum)|
        ≤ |f a - g a| + |(rest.map f).sum - (rest.map g).sum| := htri
      _ ≤ c + rest.length * c := by
          exact add_le_add hhead hrest
      _ = (rest.length + 1) * c := by ring

theorem filter_sum_classTotal (md : MonthlyData)
    (accounts : List AccountInfo) (ty : AccountType) :
    ((accounts.filter (fun a => a.type = ty)).map
      (fun acc => |getVal md acc.name|)).sum = classTotal md accounts ty := by
  unfold classTotal
  induction accounts with
  | nil => rfl
  | cons a rest ih =>
    by_cases hty : a.type = ty
    · simp [List.filter_cons, hty, ih]
    · simp [List.filter_cons, hty, ih]

/-- C3.  Trend projection: selecting any (non-`'all'`-named) account
yields, per month, its absolute contribution and
`100 × value / classTotal` rounded to one decimal place, with percentage
0 (not NaN/undefined) whenever the class total is 0; and for any month
with positive class total the percentages of all accounts of one
classification sum to 100 up to rounding (each entry rounds within
1/20, so the sum is within `n/20` of 100). -/
theorem C3_trend_projection (monthlyData : List MonthlyData)
    (accounts : List AccountInfo)
    (hnd : (accounts.map AccountInfo.name).Nodup) :
    (∀ acc ∈ accounts, acc.name ≠ "all" →
      lineChartData monthlyData accounts acc.name =
        monthlyData.map (fun md =>
          { month := md.month
            value := |getVal md acc.name|
            percentage :=
              if classTotal md accounts acc.type > 0
              then (jsRound ((100 * |getVal md acc.name| /
                  classTotal md accounts acc.type) * 10) : ℚ) / 10
              else 0 }))
    ∧ (∀ md ∈ monthlyData, ∀ ty : AccountType,
        classTotal md accounts ty > 0 →
        |(((accounts.filter (fun a => a.type = ty)).map (fun acc =>
            (jsRound ((100 * |getVal md acc.name| /
                classTotal md accounts ty) * 10) : ℚ) / 10)).sum) - 100|
          ≤ ((accounts.filter (fun a => a.type = ty)).length : ℚ) / 20) := by
  constructor
  · intro acc hacc hall
    unfold lineChartData
    rw [if_neg hall, find?_eq_of_nodup accounts acc hnd hacc]
    apply List.map_congr_left
    intro md _
    dsimp only
    congr 1
    by_cases hT : classTotal md accounts acc.type > 0
    · rw [if_pos hT, if_pos hT]
      have harith : |getVal md acc.name| / classTotal md accounts acc.type
          * 100 = 100 * |getVal md acc.name| /
            classTotal md accounts acc.type := by
        ring
      rw [harith]
    · rw [if_neg hT, if_neg hT]
      norm_num [jsRound]
  · intro md _ ty hT
    have hexact : (((accounts.filter (fun a => a.type = ty)).map
        (fun acc => 100 * |getVal md acc.name| /
          classTotal md accounts ty)).sum) = 100 := by
      have h1 : ((accounts.filter (fun a => a.type = ty)).map
          (fun acc => 100 * |getVal md acc.name| /
            classTotal md accounts ty)).sum =
          ((accounts.filter (fun a => a.type = ty)).map
            (fun acc => (100 / classTotal md accounts ty) *
              |getVal md acc.name|)).sum := by
        apply congrArg List.sum
        apply List.map_congr_left
        intro a _
        ring
      rw [h1, List.sum_map_mul_left, filter_sum_classTotal]
      field_simp
    have herr : ∀ acc ∈ accounts.filter (fun a => a.type = ty),
        |((jsRound ((100 * |getVal md acc.name| /
            classTotal md accounts ty) * 10) : ℚ) / 10) -
          (100 * |getVal md acc.name| / classTotal md accounts ty)| ≤
          1 / 20 := by
      intro acc _
      have h := jsRound_err
        ((100 * |getVal md acc.name| / classTotal md accounts ty) * 10)
      have heq : ((jsRound ((100 * |getVal md acc.name| /
          classTotal md accounts ty) * 10) : ℚ) / 10) -
            (100 * |getVal md acc.name| / classTotal md accounts ty) =
          ((jsRound ((100 * |getVal md acc.name| /
            classTotal md accounts ty) * 10) : ℚ) -
            (100 * |getVal md acc.name| /
              classTotal md accounts ty) * 10) / 10 := by
        ring
      rw [heq, abs_div, abs_of_pos (show (0 : ℚ) < 10 by norm_num)]
      linarith
    have hbound := sum_err_bound (accounts.filter (fun a => a.type = ty))
      (fun acc => (jsRound ((100 * |getVal md acc.name| /
          classTotal md accounts ty) * 10) : ℚ) / 10)
      (fun acc => 100 * |getVal md acc.name| / classTotal md accounts ty)
      (1 / 20) herr
    rw [hexact] at hbound
    calc |(((accounts.filter (fun a => a.type = ty)).map (fun acc =>
            (jsRound ((100 * |getVal md acc.name| /
                classTotal md accounts ty) * 10) : ℚ) / 10)).sum) - 100|
        ≤ (accounts.filter (fun a => a.type = ty)).length * (1 / 20) :=
          hbound
      _ = ((accounts.filter (fun a => a.type = ty)).length : ℚ) / 20 := by
          ring

/-- Witness for C3: one income account "Sales" worth 1000 in 2024-03:
its trend point is (1000, 100.0) and the class percentages sum to 100
within 1/20. -/
theorem C3_trend_projection_witness :
    (∀ acc ∈ [(⟨"Sales", AccountType.income, "#10b981"⟩ : AccountInfo)],
      acc.name ≠ "all" →
      lineChartData [⟨⟨2024, 3⟩, [("Sales", 1000)]⟩]
          [⟨"Sales", AccountType.income, "#10b981"⟩] acc.name =
        [⟨⟨2024, 3⟩, [("Sales", 1000)]⟩].map (fun md =>
          { month := md.month
            value := |getVal md acc.name|
            percentage :=
              if classTotal md [⟨"Sales", AccountType.income, "#10b981"⟩]
                  acc.type > 0
              then (jsRound ((100 * |getVal md acc.name| /
                  classTotal md [⟨"Sales", AccountType.income, "#10b981"⟩]
                    acc.type) * 10) : ℚ) / 10
              else 0 }))
    ∧ (∀ md ∈ [(⟨⟨2024, 3⟩, [("Sales", 1000)]⟩ : MonthlyData)],
        ∀ ty : AccountType,
        classTotal md [⟨"Sales", AccountType.income, "#10b981"⟩] ty > 0 →
        |((([(⟨"Sales", AccountType.income, "#10b981"⟩ : AccountInfo)].filter
            (fun a => a.type = ty)).map (fun acc =>
            (jsRound ((100 * |getVal md acc.name| /
                classTotal md [⟨"Sales", AccountType.income, "#10b981"⟩]
                  ty) * 10) : ℚ) / 10)).sum) - 100|
          ≤ (([(⟨"Sales", AccountType.income, "#10b981"⟩ : AccountInfo)].filter
              (fun a => a.type = ty)).length : ℚ) / 20) :=
  C3_trend_projection [⟨⟨2024, 3⟩, [("Sales", 1000)]⟩]
    [⟨"Sales", AccountType.income, "#10b981"⟩] (by decide)


/-! ## Claim C4 -/

theorem stampFrom_length (config : PDFConfig) (total k : ℕ)
    (pages : List RenderedPage) :
    (stampFrom config total k pages).length = pages.length := by
  induction pages generalizing k with
  | nil => rfl
  | cons p rest ih =>
    simp [stampFrom, ih]

theorem stampFrom_map_content (config : PDFConfig) (total k : ℕ)
    (pages : List RenderedPage) :
    (stampFrom config total k pages).map RenderedPage.content =
      pages.map RenderedPage.content := by
  induction pages generalizing k with
  | nil => rfl
  | cons p rest ih =>
    simp [stampFrom, ih]

theorem stampFrom_map_footer (config : PDFConfig) (total : ℕ)
    (pages : List RenderedPage) :
    ∀ k : ℕ, (∀ p ∈ pages, p.footer = []) →
    (stampFrom config total k pages).map RenderedPage.footer =
      (List.range pages.length).map
        (fun i => addPageFooter config (k + i + 1) total) := by
  induction pages with
  | nil =>
    intro k h
    rfl
  | cons p rest ih =>
    intro k h
    simp only [stampFrom, List.map_cons, List.length_cons,
      List.range_succ_eq_map, List.map_map]
    rw [h p (List.mem_cons_self p rest)]
    congr 1
    rw [ih (k + 1) (fun q hq => h q (List.mem_cons_of_mem p hq))]
    apply List.map_congr_left
    intro i _
    simp only [Function.comp]
    congr 1
    omega


/-- C4.  Every page of a generated paginated document, page 1 included,
carries a footer stamped `Page X / total` where `total` is the true
number of produced pages, identical in every footer; and the footer pass
is a second pass: it touches no table content and appends the footer to
every produced page only after the table layout is complete. -/
theorem C4_footer_totals_two_pass (headers body : List (List String))
    (cap : ℕ) (config : PDFConfig) :
    0 < (generatePagedDoc headers body cap config).length
    ∧ (generatePagedDoc headers body cap config).length =
        (autoTablePages body cap).length
    ∧ (generatePagedDoc headers body cap config).map RenderedPage.footer =
        (List.range (generatePagedDoc headers body cap config).length).map
          (fun i =>
            (if config.companyName ≠ "" then [config.companyName] else []) ++
            ["Page " ++ toString (i + 1) ++ " / " ++
              toString (generatePagedDoc headers body cap config).length])
    ∧ (generatePagedDoc headers body cap config).map RenderedPage.content =
        (autoTablePages body cap).map (fun rows => headers ++ rows) := by
  have hlen : (generatePagedDoc headers body cap config).length =
      (autoTablePages body cap).length := by
    unfold generatePagedDoc
    dsimp only
    rw [stampFrom_length, List.length_map]
  have hpos : 0 < (autoTablePages body cap).length := by
    unfold autoTablePages
    by_cases hb : body = []
    · rw [if_pos hb]
      simp
    · rw [if_neg hb]
      cases body with
      | nil => exact absurd rfl hb
      | cons x rest =>
        rw [chunksOf]
        simp
  refine ⟨hlen ▸ hpos, hlen, ?_, ?_⟩
  · rw [hlen]
    unfold generatePagedDoc
    dsimp only
    rw [stampFrom_map_footer config _ _ 0 (fun p hp => by
      obtain ⟨rows, _, rfl⟩ := List.mem_map.mp hp
      rfl)]
    rw [List.length_map]
    apply List.map_congr_left
    intro i _
    unfold addPageFooter
    simp [Nat.zero_add, Nat.add_sub_cancel]
  · unfold generatePagedDoc
    dsimp only
    rw [stampFrom_map_content, List.map_map]
    rfl


/-! ## Split / join round trip -/

theorem splitOnChar_cons (sep c : Char) (l : List Char) :
    splitOnChar sep (c :: l) =
      match splitOnChar sep l with
      | [] => [[]]
      | cur :: rest =>
        if c = sep then [] :: cur :: rest else (c :: cur) :: rest := rfl

theorem splitOnChar_ne_nil (sep : Char) (l : List Char) :
    splitOnChar sep l ≠ [] := by
  induction l with
  | nil => simp [splitOnChar]
  | cons c t ih =>
    rw [splitOnChar_cons]
    cases h : splitOnChar sep t with
    | nil => simp
    | cons cur rest =>
      by_cases hc : c = sep <;> simp [hc]

theorem splitOnChar_no_sep (sep : Char) (l : List Char) (h : sep ∉ l) :
    splitOnChar sep l = [l] := by
  induction l with
  | nil => rfl
  | cons c t ih =>
    simp only [List.mem_cons, not_or] at h
    rw [splitOnChar_cons, ih h.2]
    have hc : ¬ c = sep := fun he => h.1 he.symm
    simp [hc]

theorem splitOnChar_append_sep (sep : Char) (x t : List Char)
    (hx : sep ∉ x) :
    splitOnChar sep (x ++ sep :: t) = x :: splitOnChar sep t := by
  induction x with
  | nil =>
    rw [List.nil_append, splitOnChar_cons]
    cases h : splitOnChar sep t with
    | nil => exact absurd h (splitOnChar_ne_nil sep t)
    | cons cur rest => simp
  | cons c x' ih =>
    simp only [List.mem_cons, not_or] at hx
    rw [List.cons_append, splitOnChar_cons, ih hx.2]
    have hc : ¬ c = sep := fun he => hx.1 he.symm
    simp [hc]

theorem splitOnChar_joinWithChar (sep : Char) (xs : List (List Char))
    (hne : xs ≠ []) (hclean : ∀ x ∈ xs, sep ∉ x) :
    splitOnChar sep (joinWithChar sep xs) = xs := by
  induction xs with
  | nil => exact absurd rfl hne
  | cons x rest ih =>
    cases rest with
    | nil =>
      exact splitOnChar_no_sep sep x (hclean x (List.mem_cons_self x []))
    | cons y rest' =>
      rw [show joinWithChar sep (x :: y :: rest') =
          x ++ sep :: joinWithChar sep (y :: rest') from rfl]
      rw [splitOnChar_append_sep sep x _
        (hclean x (List.mem_cons_self x _))]
      rw [ih (by simp) (fun z hz => hclean z (List.mem_cons_of_mem x hz))]

theorem splitOnChar_cons_ne (sep c : Char) (l : List Char)
    (hc : c ≠ sep) :
    splitOnChar sep (c :: l) =
      (c :: (splitOnChar sep l).headI) :: (splitOnChar sep l).tail := by
  rw [splitOnChar_cons]
  cases h : splitOnChar sep l with
  | nil => exact absurd h (splitOnChar_ne_nil sep l)
  | cons cur rest => simp [hc]

theorem not_mem_joinWithChar (sep c : Char) (xs : List (List Char))
    (hc : c ≠ sep) (h : ∀ x ∈ xs, c ∉ x) :
    c ∉ joinWithChar sep xs := by
  induction xs with
  | nil => simp [joinWithChar]
  | cons x rest ih =>
    cases rest with
    | nil => exact h x (List.mem_cons_self x [])
    | cons y rest' =>
      rw [show joinWithChar sep (x :: y :: rest') =
          x ++ sep :: joinWithChar sep (y :: rest') from rfl]
      intro hmem
      rcases List.mem_append.mp hmem with hin | hin
      · exact h x (List.mem_cons_self x _) hin
      · rcases List.mem_cons.mp hin with rfl | hin'
        · exact hc rfl
        · exact ih (fun z hz => h z (List.mem_cons_of_mem x hz)) hin'

/-- Core round-trip statistics: the BOM-prefixed, comma-joined,
newline-joined CSV text splits back into one line per row plus the
header line, each line splitting into the declared column count. -/
theorem csvContent_stats (headers : List String)
    (rows : List (List String)) (ncols : ℕ)
    (hhead : headers.length = ncols) (hn0 : 0 < ncols)
    (hrows : ∀ row ∈ rows, row.length = ncols)
    (hclean : ∀ row ∈ headers :: rows, ∀ cell ∈ row,
      ',' ∉ cell.data ∧ '\n' ∉ cell.data) :
    (splitStr '\n' (csvContent headers rows)).length = rows.length + 1
    ∧ ∀ line ∈ splitStr '\n' (csvContent headers rows),
        (splitStr ',' line).length = ncols := by
  have hsepne : ('\uFEFF' : Char) ≠ '\n' := by decide
  have hcomma_nl : (',' : Char) ≠ '\n' := by decide
  have hbom_comma : ('\uFEFF' : Char) ≠ ',' := by decide
  have hlclean : ∀ lrow ∈ (headers :: rows).map
      (fun row => joinWithChar ',' (row.map String.data)),
      '\n' ∉ lrow := by
    intro lrow hl
    obtain ⟨row, hrow, rfl⟩ := List.mem_map.mp hl
    apply not_mem_joinWithChar
    · exact fun h => hcomma_nl h.symm
    · intro x hx hmem
      obtain ⟨cell, hcell, rfl⟩ := List.mem_map.mp hx
      exact (hclean row hrow cell hcell).2 hmem
  have hsplit1 : splitOnChar '\n' (csvContent headers rows).data =
      ('\uFEFF' :: joinWithChar ',' (headers.map String.data)) ::
        (rows.map (fun row => joinWithChar ',' (row.map String.data))) := by
    show splitOnChar '\n' ('\uFEFF' :: joinWithChar '\n' _) = _
    rw [splitOnChar_cons_ne _ _ _ hsepne,
      splitOnChar_joinWithChar '\n' _ (by simp) hlclean]
    rw [List.map_cons]
    rfl
  have hrowsplit : ∀ row ∈ headers :: rows, row.length = ncols →
      splitOnChar ',' (joinWithChar ',' (row.map String.data)) =
        row.map String.data := by
    intro row hrow hlen
    apply splitOnChar_joinWithChar
    · intro hmapnil
      rw [List.map_eq_nil] at hmapnil
      rw [hmapnil] at hlen
      simp at hlen
      omega
    · intro x hx hmem
      obtain ⟨cell, hcell, rfl⟩ := List.mem_map.mp hx
      exact (hclean row hrow cell hcell).1 hmem
  constructor
  · unfold splitStr
    rw [hsplit1]
    simp
  · intro line hline
    unfold splitStr at hline
    rw [hsplit1] at hline
    simp only [List.map_cons, List.mem_cons, List.map_map] at hline
    rcases hline with rfl | hline
    · unfold splitStr
      have hdata : (String.mk ('\uFEFF' :: joinWithChar ','
          (headers.map String.data))).data =
          '\uFEFF' :: joinWithChar ',' (headers.map String.data) := rfl
      rw [hdata, splitOnChar_cons_ne _ _ _ hbom_comma,
        hrowsplit headers (List.mem_cons_self _ _) hhead]
      cases hh : headers with
      | nil =>
        rw [hh] at hhead
        simp at hhead
        omega
      | cons a t =>
        rw [hh] at hhead
        simp only [List.map_cons, List.headI, List.tail_cons,
          List.length_cons, List.length_map] at hhead ⊢
        omega
    · obtain ⟨row, hrow, rfl⟩ := List.mem_map.mp hline
      unfold splitStr
      have hdata : ((String.mk ∘ fun row =>
          joinWithChar ',' (row.map String.data)) row).data =
          joinWithChar ',' (row.map String.data) := rfl
      rw [hdata, hrowsplit row (List.mem_cons_of_mem headers hrow)
        (hrows row hrow)]
      simp [hrows row hrow]


/-! ## Claim C5 -/

theorem generateLedgerCSVRows_shape (l : Ledger) :
    ∀ row ∈ generateLedgerCSVRows l, row.length = 6 := by
  intro row hrow
  unfold generateLedgerCSVRows at hrow
  rcases List.mem_append.mp hrow with hin | hin
  · obtain ⟨e, _, rfl⟩ := List.mem_map.mp hin
    rfl
  · rw [List.mem_singleton] at hin
    subst hin
    rfl

theorem trialBalanceCsvRows_shape (d : TrialBalance) :
    ∀ row ∈ trialBalanceCsvRows d, row.length = 5 := by
  intro row hrow
  unfold trialBalanceCsvRows at hrow
  rcases List.mem_append.mp hrow with hin | hin
  · obtain ⟨e, _, rfl⟩ := List.mem_map.mp hin
    rfl
  · rw [List.mem_singleton] at hin
    subst hin
    rfl

theorem journalCsvRows_shape (records : List CsvRec) :
    ∀ row ∈ records.map journalCsvRow, row.length = 8 := by
  intro row hrow
  obtain ⟨r, _, rfl⟩ := List.mem_map.mp hrow
  rfl

/-- C5 counterexample: the journal delimited export of a single record
splits into 2 lines (header plus the one data row) — no trailing totals
row is appended, where the claim predicts 3 lines (header, data,
totals). -/
theorem C5_counterexample_journal_no_totals_row :
    (splitStr '\n' (journalCsv
      [⟨some "2024-03-01", some "memo", some 1, some 1, none, none, none,
        some "Sales", some "1000", none, some 2, none, none⟩])).length = 2
    ∧ (2 : ℕ) ≠ 3 := by
  constructor
  · rfl
  · decide

/-- C5 (amended).  The ledger and trial-balance delimited exports append
exactly one trailing totals row: split back into rows, the output yields
the header line plus input-entry-count-plus-one lines, and every line
has the declared header's column count (6 and 5 respectively), with the
non-applicable cells of the totals row left empty.  The journal export
appends no totals row: it splits into the header line plus exactly one
line per input record, each with the 8 declared columns.  (Hypotheses:
the built cells are free of the delimiter and of newlines, which the
caller's data satisfies for well-formed account names and amounts.) -/
theorem C5_roundtrip_and_totals_rows
    (l : Ledger) (d : TrialBalance) (records : List CsvRec)
    (hl : ∀ row ∈ ledgerCsvHeaders :: generateLedgerCSVRows l,
      ∀ cell ∈ row, ',' ∉ cell.data ∧ '\n' ∉ cell.data)
    (ht : ∀ row ∈ trialBalanceCsvHeaders :: trialBalanceCsvRows d,
      ∀ cell ∈ row, ',' ∉ cell.data ∧ '\n' ∉ cell.data)
    (hj : ∀ row ∈ journalCsvHeaders :: records.map journalCsvRow,
      ∀ cell ∈ row, ',' ∉ cell.data ∧ '\n' ∉ cell.data) :
    ((splitStr '\n' (generateLedgerCSV l)).length = l.entries.length + 2
     ∧ ∀ line ∈ splitStr '\n' (generateLedgerCSV l),
        (splitStr ',' line).length = 6)
    ∧ ((splitStr '\n' (trialBalanceCsv d)).length = d.entries.length + 2
     ∧ ∀ line ∈ splitStr '\n' (trialBalanceCsv d),
        (splitStr ',' line).length = 5)
    ∧ ((splitStr '\n' (journalCsv records)).length = records.length + 1
     ∧ ∀ line ∈ splitStr '\n' (journalCsv records),
        (splitStr ',' line).length = 8)
    ∧ (generateLedgerCSVRows l).getLast? = some
        ["合計", "", "", toString l.summaryDebitTotal,
         toString l.summaryCreditTotal, toString l.summaryBalance] := by
  have hstats_l := csvContent_stats ledgerCsvHeaders
    (generateLedgerCSVRows l) 6 rfl (by norm_num)
    (generateLedgerCSVRows_shape l) hl
  have hstats_t := csvContent_stats trialBalanceCsvHeaders
    (trialBalanceCsvRows d) 5 rfl (by norm_num)
    (trialBalanceCsvRows_shape d) ht
  have hstats_j := csvContent_stats journalCsvHeaders
    (records.map journalCsvRow) 8 rfl (by norm_num)
    (journalCsvRows_shape records) hj
  have hlen_l : (generateLedgerCSVRows l).length = l.entries.length + 1 := by
    unfold generateLedgerCSVRows
    simp
  have hlen_t : (trialBalanceCsvRows d).length = d.entries.length + 1 := by
    unfold trialBalanceCsvRows
    simp
  refine ⟨⟨?_, hstats_l.2⟩, ⟨?_, hstats_t.2⟩, ⟨?_, hstats_j.2⟩, ?_⟩
  · show (splitStr '\n' (csvContent ledgerCsvHeaders
      (generateLedgerCSVRows l))).length = l.entries.length + 2
    rw [hstats_l.1, hlen_l]
  · show (splitStr '\n' (csvContent trialBalanceCsvHeaders
      (trialBalanceCsvRows d))).length = d.entries.length + 2
    rw [hstats_t.1, hlen_t]
  · show (splitStr '\n' (csvContent journalCsvHeaders
      (records.map journalCsvRow))).length = records.length + 1
    rw [hstats_j.1, List.length_map]
  · unfold generateLedgerCSVRows
    rw [List.getLast?_append]
    rfl

/-- Witness for C5 (amended): a one-entry ledger, a one-entry trial
balance and a one-record journal export. -/
theorem C5_roundtrip_and_totals_rows_witness :
    ((splitStr '\n' (generateLedgerCSV
        ⟨"現金", [⟨"2024-03-01", "売上", some "memo", some 100, none, 100⟩],
         100, 0, 100⟩)).length =
      [(⟨"2024-03-01", "売上", some "memo", some 100, none,
        100⟩ : LedgerEntry)].length + 2
     ∧ ∀ line ∈ splitStr '\n' (generateLedgerCSV
        ⟨"現金", [⟨"2024-03-01", "売上", some "memo", some 100, none, 100⟩],
         100, 0, 100⟩),
        (splitStr ',' line).length = 6)
    ∧ ((splitStr '\n' (trialBalanceCsv
        ⟨[⟨"現金", 100, 0, 100, 0⟩], 100, 100, 100, 0⟩)).length =
      [(⟨"現金", 100, 0, 100, 0⟩ : TrialBalanceEntry)].length + 2
     ∧ ∀ line ∈ splitStr '\n' (trialBalanceCsv
        ⟨[⟨"現金", 100, 0, 100, 0⟩], 100, 100, 100, 0⟩),
        (splitStr ',' line).length = 5)
    ∧ ((splitStr '\n' (journalCsv
        [⟨some "2024-03-01", some "memo", some 1, some 1, none, none, none,
          some "Sales", some "1000", none, some 2, none, none⟩])).length =
      [(⟨some "2024-03-01", some "memo", some 1, some 1, none, none, none,
        some "Sales", some "1000", none, some 2, none, none⟩ :
          CsvRec)].length + 1
     ∧ ∀ line ∈ splitStr '\n' (journalCsv
        [⟨some "2024-03-01", some "memo", some 1, some 1, none, none, none,
          some "Sales", some "1000", none, some 2, none, none⟩]),
        (splitStr ',' line).length = 8)
    ∧ (generateLedgerCSVRows
        ⟨"現金", [⟨"2024-03-01", "売上", some "memo", some 100, none, 100⟩],
         100, 0, 100⟩).getLast? = some
        ["合計", "", "", toString (100 : ℤ), toString (0 : ℤ),
         toString (100 : ℤ)] :=
  C5_roundtrip_and_totals_rows
    ⟨"現金", [⟨"2024-03-01", "売上", some "memo", some 100, none, 100⟩],
     100, 0, 100⟩
    ⟨[⟨"現金", 100, 0, 100, 0⟩], 100, 100, 100, 0⟩
    [⟨some "2024-03-01", some "memo", some 1, some 1, none, none, none,
      some "Sales", some "1000", none, some 2, none, none⟩]
    (by decide) (by decide) (by decide)

/-! ## Claim C6 -/

theorem count_quote_doubled (l : List Char) :
    ((l.map (fun c => if c = '"' then ['"', '"'] else [c])).flatten).count
      '"' = 2 * l.count '"' := by
  induction l with
  | nil => simp
  | cons c t ih =>
    by_cases h : c = '"' <;>
      simp [h, List.count_append, List.count_cons, ih] <;> omega

/-- C6 counterexample: a journal record whose debit-account cell is the
string "a,b" — containing the delimiter — is emitted verbatim with no
quote character at all, so the produced data line splits into 9 columns
instead of the declared 8.  General delimiter/quote/newline escaping is
not performed; only the description cell is quoted. -/
theorem C6_counterexample_unquoted_comma :
    (journalCsvRow
      ⟨some "2024-03-01", some "memo", some 1, some 1, some "a,b", none,
       none, some "Sales", some "1000", none, some 2, none, none⟩)[2]? =
      some "a,b"
    ∧ ',' ∈ "a,b".data
    ∧ '"' ∉ "a,b".data
    ∧ (splitStr ','
        ⟨joinWithChar ','
          ((journalCsvRow
            ⟨some "2024-03-01", some "memo", some 1, some 1, some "a,b",
             none, none, some "Sales", some "1000", none, some 2, none,
             none⟩).map String.data)⟩).length = 9
    ∧ (9 : ℕ) ≠ journalCsvHeaders.length := by
  refine ⟨rfl, by decide, by decide, ?_, by decide⟩
  rfl

/-- C6 (amended).  In the journal and transaction-list delimited
exports, only the free-text description cell is quoted, and it is
quoted unconditionally: it always renders as `quoteCell` of the
description, which wraps the text in a leading and a trailing quote
character and doubles every internal quote (the output holds exactly
two quote characters more than twice the input's).  Every other cell —
here the debit-account cell of both exports — is emitted verbatim from
its source field, with no quoting applied even when it contains the
delimiter, a quote character, or a newline. -/
theorem C6_description_quoting (r : CsvRec) (s : String) :
    (journalCsvRow r)[1]? = some (quoteCell (orEmpty r.description))
    ∧ (exportButtonCsvRow r)[3]? = some (quoteCell (orEmpty r.description))
    ∧ (journalCsvRow r)[2]? = some (orEmpty r.debit_item)
    ∧ (exportButtonCsvRow r)[4]? = some (orEmpty r.debit_item)
    ∧ (quoteCell s).data.head? = some '"'
    ∧ (quoteCell s).data.getLast? = some '"'
    ∧ (quoteCell s).data.count '"' = 2 + 2 * s.data.count '"' := by
  refine ⟨rfl, rfl, rfl, rfl, rfl, ?_, ?_⟩
  · show ('"' :: ((s.data.map
        (fun c => if c = '"' then ['"', '"'] else [c])).flatten
        ++ ['"'])).getLast? = some '"'
    rw [← List.cons_append, List.getLast?_concat]
  · show ('"' :: ((s.data.map
        (fun c => if c = '"' then ['"', '"'] else [c])).flatten
        ++ ['"'])).count '"' = 2 + 2 * s.data.count '"'
    rw [List.count_cons, List.count_append, count_quote_doubled]
    simp
    omega

/-! ## Claim C7 -/

theorem digitChar_bounds (d : ℕ) (h : d < 10) :
    '0' ≤ digitChar d ∧ digitChar d ≤ '9' := by
  interval_cases d <;> exact ⟨by decide, by decide⟩

theorem natDecimalDigits_bounds (n : ℕ) :
    ∀ c ∈ natDecimalDigits n, '0' ≤ c ∧ c ≤ '9' := by
  induction n using Nat.strong_induction_on with
  | _ n ih =>
    intro c hc
    unfold natDecimalDigits at hc
    split_ifs at hc with h
    · rw [List.mem_singleton] at hc
      subst hc
      exact digitChar_bounds n h
    · rcases List.mem_append.mp hc with hin | hin
      · exact ih (n / 10) (Nat.div_lt_self (by omega) (by omega)) c hin
      · rw [List.mem_singleton] at hin
        subst hin
        exact digitChar_bounds _ (Nat.mod_lt n (by omega))

theorem natDecimalDigits_ne_nil (n : ℕ) : natDecimalDigits n ≠ [] := by
  unfold natDecimalDigits
  split_ifs <;> simp

theorem natDecimalDigits_ne_comma (n : ℕ) :
    ∀ c ∈ natDecimalDigits n, c ≠ ',' := by
  intro c hc he
  have h := natDecimalDigits_bounds n c hc
  rw [he] at h
  exact absurd h.1 (by decide)

theorem chunksOf_facts_aux {α : Type} (cap fuel : ℕ) :
    ∀ l : List α, l.length ≤ fuel →
      (∀ g ∈ chunksOf cap l, g ≠ [] ∧ g.length ≤ max cap 1)
      ∧ (∀ g ∈ (chunksOf cap l).dropLast, g.length = max cap 1)
      ∧ (chunksOf cap l).flatten = l := by
  induction fuel with
  | zero =>
    intro l hl
    have hnil : l = [] := List.length_eq_zero.mp (Nat.le_zero.mp hl)
    subst hnil
    exact ⟨by simp [chunksOf], by simp [chunksOf], by simp [chunksOf]⟩
  | succ fuel ih =>
    intro l hl
    cases l with
    | nil => exact ⟨by simp [chunksOf], by simp [chunksOf], by simp [chunksOf]⟩
    | cons x rest =>
      have hk : 1 ≤ max cap 1 := le_max_right _ _
      have hlen : ((x :: rest).drop (max cap 1)).length ≤ fuel := by
        simp only [List.length_drop, List.length_cons]
        simp only [List.length_cons] at hl
        omega
      obtain ⟨ih1, ih2, ih3⟩ := ih _ hlen
      rw [chunksOf]
      refine ⟨?_, ?_, ?_⟩
      · intro g hg
        rcases List.mem_cons.mp hg with rfl | hg2
        · constructor
          · cases hmax : max cap 1 with
            | zero => omega
            | succ k => simp
          · exact List.length_take_le _ _
        · exact ih1 g hg2
      · intro g hg
        cases hc : chunksOf cap ((x :: rest).drop (max cap 1)) with
        | nil =>
          rw [hc] at hg
          simp at hg
        | cons c cs =>
          rw [hc] at hg
          rw [show (((x :: rest).take (max cap 1)) :: c :: cs).dropLast =
              ((x :: rest).take (max cap 1)) :: (c :: cs).dropLast
            from rfl] at hg
          rcases List.mem_cons.mp hg with rfl | hg2
          · have hdne : (x :: rest).drop (max cap 1) ≠ [] := by
              intro habs
              rw [habs] at hc
              simp [chunksOf] at hc
            have hlt : max cap 1 < (x :: rest).length := by
              by_contra hle
              push_neg at hle
              exact hdne (List.drop_eq_nil_of_le hle)
            rw [List.length_take]
            omega
          · rw [← hc] at hg2
            exact ih2 g hg2
      · rw [List.flatten_cons, ih3, List.take_append_drop]

theorem chunksOf_facts {α : Type} (cap : ℕ) (l : List α) :
    (∀ g ∈ chunksOf cap l, g ≠ [] ∧ g.length ≤ max cap 1)
    ∧ (∀ g ∈ (chunksOf cap l).dropLast, g.length = max cap 1)
    ∧ (chunksOf cap l).flatten = l :=
  chunksOf_facts_aux cap l.length l le_rfl

theorem flatten_reverse_map_reverse (cs : List (List Char)) :
    ((cs.map List.reverse).reverse).flatten = cs.flatten.reverse := by
  induction cs with
  | nil => rfl
  | cons c t ih =>
    simp only [List.map_cons, List.reverse_cons, List.flatten_append,
      List.flatten_cons, List.flatten_nil, List.reverse_append, ih,
      List.append_nil]

theorem tail_reverse_eq {α : Type} (l : List α) :
    l.reverse.tail = l.dropLast.reverse := by
  rcases List.eq_nil_or_concat l with rfl | ⟨t, a, rfl⟩
  · rfl
  · simp

theorem dropLast_map_eq {α β : Type} (f : α → β) (l : List α) :
    (l.map f).dropLast = l.dropLast.map f := by
  induction l with
  | nil => rfl
  | cons c t ih =>
    cases t with
    | nil => rfl
    | cons d t2 =>
      simp only [List.map_cons] at ih ⊢
      rw [show ((f c :: f d :: t2.map f)).dropLast =
          f c :: ((f d :: t2.map f)).dropLast from rfl]
      rw [show ((c :: d :: t2)).dropLast = c :: ((d :: t2)).dropLast
        from rfl]
      rw [ih, List.map_cons]

theorem chunksRight_facts (ds : List Char) (hds : ds ≠ []) :
    (chunksRight ds).flatten = ds
    ∧ chunksRight ds ≠ []
    ∧ (∀ g ∈ chunksRight ds, 1 ≤ g.length ∧ g.length ≤ 3)
    ∧ (∀ g ∈ (chunksRight ds).tail, g.length = 3) := by
  obtain ⟨h1, h2, h3⟩ := chunksOf_facts 3 ds.reverse
  have hmax : max 3 1 = 3 := by norm_num
  refine ⟨?_, ?_, ?_, ?_⟩
  · rw [chunksRight, flatten_reverse_map_reverse, h3,
      List.reverse_reverse]
  · rw [chunksRight]
    cases hrev : ds.reverse with
    | nil => exact absurd (by simpa using congrArg List.reverse hrev) hds
    | cons c cs =>
      rw [chunksOf]
      simp
  · intro g hg
    rw [chunksRight, List.mem_reverse, List.mem_map] at hg
    obtain ⟨c, hc, rfl⟩ := hg
    obtain ⟨hne, hle⟩ := h1 c hc
    rw [List.length_reverse]
    rw [hmax] at hle
    exact ⟨List.length_pos.mpr hne, hle⟩
  · intro g hg
    rw [chunksRight, tail_reverse_eq, List.mem_reverse,
      dropLast_map_eq, List.mem_map] at hg
    obtain ⟨c, hc, rfl⟩ := hg
    rw [List.length_reverse]
    rw [← hmax]
    exact h2 c hc

theorem mem_joinWithChar (sep c : Char) (xs : List (List Char))
    (h : c ∈ joinWithChar sep xs) : c = sep ∨ ∃ x ∈ xs, c ∈ x := by
  induction xs with
  | nil => simp [joinWithChar] at h
  | cons x rest ih =>
    cases rest with
    | nil =>
      exact Or.inr ⟨x, List.mem_cons_self x [], h⟩
    | cons y rest2 =>
      rw [show joinWithChar sep (x :: y :: rest2) =
          x ++ sep :: joinWithChar sep (y :: rest2) from rfl] at h
      rcases List.mem_append.mp h with hin | hin
      · exact Or.inr ⟨x, List.mem_cons_self x _, hin⟩
      · rcases List.mem_cons.mp hin with rfl | hin2
        · exact Or.inl rfl
        · rcases ih hin2 with hs | ⟨z, hz, hcz⟩
          · exact Or.inl hs
          · exact Or.inr ⟨z, List.mem_cons_of_mem x hz, hcz⟩

theorem filter_ne_joinWithChar (sep : Char) (ps : List (List Char))
    (h : ∀ p ∈ ps, sep ∉ p) :
    (joinWithChar sep ps).filter (· ≠ sep) = ps.flatten := by
  induction ps with
  | nil => rfl
  | cons x rest ih =>
    have hxcl : List.filter (fun c => decide ¬ c = sep) x = x := by
      rw [List.filter_eq_self]
      intro a ha
      have hne : a ≠ sep := fun he =>
        h x (List.mem_cons_self x rest) (he ▸ ha)
      simpa using hne
    cases rest with
    | nil =>
      rw [show joinWithChar sep [x] = x from rfl]
      simpa using hxcl
    | cons y rest2 =>
      rw [show joinWithChar sep (x :: y :: rest2) =
          x ++ sep :: joinWithChar sep (y :: rest2) from rfl]
      rw [List.filter_append, List.filter_cons, List.flatten_cons]
      have hsep : (decide ¬ sep = sep) = false := by simp
      rw [hsep]
      simp only [Bool.false_eq_true, if_false]
      rw [ih (fun p hp => h p (List.mem_cons_of_mem x hp))]
      simpa using congrArg (· ++ (y :: rest2).flatten) hxcl

/-- C7 counterexample: in a plain data row of the 仕訳帳 PDF body, a
zero debit amount renders as the string "0", not as an empty cell —
the zero-to-"0" rule is unconditional in `formatAmount`, not reserved
to totals rows. -/
theorem C7_counterexample_zero_in_data_row :
    (journalPdfRow
      ⟨some "2024-03-01T00:00:00", some 1, some 1, some "memo",
       some "現金", some 0, none, some "売上", some 1000, none,
       some 2⟩)[5]? = some "0"
    ∧ ("0" : String) ≠ "" := by
  constructor
  · rfl
  · decide

/-- C7 (amended).  In the paginated-document tables every amount cell
goes through `formatAmount`: a null/absent amount renders as an empty
cell, but an amount of zero renders as the string "0" in every row —
data rows included, not only in the explicit totals row (the ledger
totals row shown here formats the same way).  A non-zero amount
renders with locale-grouped digits and no currency symbol: its
characters are decimal digits, the comma separator, or a leading minus
sign for negatives; dropping the separators recovers the plain decimal
digits; and the digit groups are of size one to three with every group
after the most significant holding exactly three digits. -/
theorem C7_amount_formatting (t : PdfTxn) (l : Ledger) (n : ℤ)
    (hn : n ≠ 0) :
    (journalPdfRow t)[5]? = some (formatAmount t.debit_amount)
    ∧ (journalPdfRow t)[8]? = some (formatAmount t.credit_amount)
    ∧ formatAmount none = ""
    ∧ formatAmount (some 0) = "0"
    ∧ (ledgerPdfRows l).getLast? = some
        ["", "", "合計", formatAmount (some l.summaryDebitTotal),
         formatAmount (some l.summaryCreditTotal),
         formatAmount (some l.summaryBalance)]
    ∧ (∀ c ∈ (formatAmount (some n)).data,
        ('0' ≤ c ∧ c ≤ '9') ∨ c = ',' ∨ (c = '-' ∧ n < 0))
    ∧ (formatAmount (some n)).data.filter (· ≠ ',') =
        (if n < 0 then ['-'] else []) ++ natDecimalDigits n.natAbs
    ∧ splitOnChar ','
        (joinWithChar ',' (chunksRight (natDecimalDigits n.natAbs))) =
        chunksRight (natDecimalDigits n.natAbs)
    ∧ (∀ g ∈ chunksRight (natDecimalDigits n.natAbs),
        1 ≤ g.length ∧ g.length ≤ 3)
    ∧ (∀ g ∈ (chunksRight (natDecimalDigits n.natAbs)).tail,
        g.length = 3) := by
  have hds := natDecimalDigits_ne_nil n.natAbs
  obtain ⟨hflat, hne, hlen, htail⟩ := chunksRight_facts _ hds
  have hgroups_clean :
      ∀ g ∈ chunksRight (natDecimalDigits n.natAbs), ',' ∉ g := by
    intro g hg hcm
    have hmem : (',' : Char) ∈ natDecimalDigits n.natAbs := by
      rw [← hflat]
      exact List.mem_flatten.mpr ⟨g, hg, hcm⟩
    exact natDecimalDigits_ne_comma _ _ hmem rfl
  have hfa : formatAmount (some n) = localeStringJa n := by
    show (if n = 0 then ("0" : String) else localeStringJa n) =
      localeStringJa n
    rw [if_neg hn]
  refine ⟨rfl, rfl, rfl, rfl, ?_, ?_, ?_, ?_, hlen, htail⟩
  · unfold ledgerPdfRows
    exact List.getLast?_concat _
  · intro c hc
    rw [hfa] at hc
    have hc2 : c ∈ (if n < 0 then ['-'] else []) ++
        joinWithChar ',' (chunksRight (natDecimalDigits n.natAbs)) := hc
    rcases List.mem_append.mp hc2 with hin | hin
    · split_ifs at hin with hlt
      · rw [List.mem_singleton] at hin
        exact Or.inr (Or.inr ⟨hin, hlt⟩)
      · simp at hin
    · rcases mem_joinWithChar ',' c _ hin with rfl | ⟨g, hg, hcg⟩
      · exact Or.inr (Or.inl rfl)
      · refine Or.inl (natDecimalDigits_bounds n.natAbs c ?_)
        rw [← hflat]
        exact List.mem_flatten.mpr ⟨g, hg, hcg⟩
  · rw [hfa]
    show ((if n < 0 then ['-'] else []) ++
        joinWithChar ',' (chunksRight (natDecimalDigits n.natAbs))).filter
        (· ≠ ',') = _
    rw [List.filter_append,
      filter_ne_joinWithChar ',' _ hgroups_clean, hflat]
    congr 1
    split_ifs <;> simp
  · exact splitOnChar_joinWithChar ',' _ hne hgroups_clean

/-- Witness for C7 (amended) at the amount -1234, an empty-entry
ledger and a concrete transaction. -/
theorem C7_amount_formatting_witness :
    ((journalPdfRow
        ⟨some "2024-04-01", some 2, some 2, some "w", some "仕入",
         some (-1234), none, some "現金", some 500, none, some 1⟩)[5]? =
      some (formatAmount (some (-1234)))
    ∧ (journalPdfRow
        ⟨some "2024-04-01", some 2, some 2, some "w", some "仕入",
         some (-1234), none, some "現金", some 500, none, some 1⟩)[8]? =
      some (formatAmount (some 500))
    ∧ formatAmount none = ""
    ∧ formatAmount (some 0) = "0"
    ∧ (ledgerPdfRows ⟨"現金", [], 0, 0, 0⟩).getLast? = some
        ["", "", "合計", formatAmount (some 0), formatAmount (some 0),
         formatAmount (some 0)]
    ∧ (∀ c ∈ (formatAmount (some (-1234))).data,
        ('0' ≤ c ∧ c ≤ '9') ∨ c = ',' ∨ (c = '-' ∧ (-1234 : ℤ) < 0))
    ∧ (formatAmount (some (-1234))).data.filter (· ≠ ',') =
        (if (-1234 : ℤ) < 0 then ['-'] else []) ++
          natDecimalDigits (Int.natAbs (-1234))
    ∧ splitOnChar ','
        (joinWithChar ','
          (chunksRight (natDecimalDigits (Int.natAbs (-1234))))) =
        chunksRight (natDecimalDigits (Int.natAbs (-1234)))
    ∧ (∀ g ∈ chunksRight (natDecimalDigits (Int.natAbs (-1234))),
        1 ≤ g.length ∧ g.length ≤ 3)
    ∧ (∀ g ∈ (chunksRight (natDecimalDigits (Int.natAbs (-1234)))).tail,
        g.length = 3)) :=
  C7_amount_formatting
    ⟨some "2024-04-01", some 2, some 2, some "w", some "仕入",
     some (-1234), none, some "現金", some 500, none, some 1⟩
    ⟨"現金", [], 0, 0, 0⟩ (-1234) (by decide)

/-! ## Claim C8 -/

/-- C8 counterexample: a record whose credit-side tax amount is -1 —
nonzero — creates no 仮受消費税 pseudo-account and accumulates
nothing: the guard in the source is `taxAmount > 0`, not
`taxAmount !== 0`. -/
theorem C8_counterexample_negative_tax_ignored :
    numOr0 (ChartRec.credit_ct
      ⟨some ⟨2024, 3⟩, some 1, some "Sales", some 10, some (-1),
       none, none, none⟩) ≠ 0
    ∧ taxCollectedName ∉
        ((aggregate
          [⟨some ⟨2024, 3⟩, some 1, some "Sales", some 10, some (-1),
            none, none, none⟩]).2.map AccountInfo.name)
    ∧ bucketAmt (foldState
        [⟨some ⟨2024, 3⟩, some 1, some "Sales", some 10, some (-1),
          none, none, none⟩]).1 ⟨2024, 3⟩ taxCollectedName = 0 := by
  exact ⟨by decide, by decide, by decide⟩

/-- C8 (amended).  For every record whose direction-selected tax
amount is strictly positive (not merely nonzero: a negative parsed tax
amount is skipped), the aggregation accumulates at least that tax
amount into the synthetic pseudo-account — 仮受消費税 for inbound
records, classified income; 仮払消費税 for outbound records,
classified expense — and that pseudo-account is its own entry of the
produced account series, distinct from every entry carrying the
record's underlying business-account name. -/
theorem C8_tax_pseudo_account (records : List ChartRec)
    (H : ∀ name, (∃ x ∈ records, postsIncome x name) →
         (∃ x ∈ records, postsExpense x name) → False)
    (r : ChartRec) (hr : r ∈ records) (mo : MonthKey)
    (hd : r.transaction_date = some mo) :
    (r.transaction_type = some 1 → numOr0 r.credit_ct > 0 →
      numOr0 r.credit_ct ≤
          bucketAmt (foldState records).1 mo taxCollectedName
      ∧ ∃ a ∈ (aggregate records).2, a.name = taxCollectedName
          ∧ a.type = AccountType.income
          ∧ ∀ itemName, r.credit_item = some itemName →
              itemName ≠ taxCollectedName →
              ∀ b ∈ (aggregate records).2, b.name = itemName → b ≠ a)
    ∧ (r.transaction_type = some 2 → numOr0 r.debit_ct > 0 →
      numOr0 r.debit_ct ≤
          bucketAmt (foldState records).1 mo taxPaidName
      ∧ ∃ a ∈ (aggregate records).2, a.name = taxPaidName
          ∧ a.type = AccountType.expense
          ∧ ∀ itemName, r.debit_item = some itemName →
              itemName ≠ taxPaidName →
              ∀ b ∈ (aggregate records).2, b.name = itemName → b ≠ a) := by
  have hnd := foldState_acct_nodup records
  constructor
  · intro hty htax
    constructor
    · rw [bucketAmt_foldState]
      have hnn : ∀ x ∈ records.map
          (fun r2 => contrib r2 mo taxCollectedName), 0 ≤ x := by
        intro x hx
        obtain ⟨r2, _, rfl⟩ := List.mem_map.mp hx
        exact contrib_nonneg r2 mo taxCollectedName
      have hmem : contrib r mo taxCollectedName ∈
          records.map (fun r2 => contrib r2 mo taxCollectedName) :=
        List.mem_map_of_mem _ hr
      have hle := List.single_le_sum hnn _ hmem
      refine le_trans ?_ hle
      have hco : contrib r mo taxCollectedName =
          incContrib r taxCollectedName := by
        simp [contrib, hd, hty]
      rw [hco]
      unfold incContrib
      rw [if_pos htax, if_pos rfl]
      have hitem : (0 : ℚ) ≤ (match r.credit_item with
          | some itemName =>
            if itemName ≠ "" ∧ numOr0 r.credit_amount > 0 then
              (if taxCollectedName = itemName then numOr0 r.credit_amount
               else 0)
            else 0
          | none => 0) := by
        cases r.credit_item with
        | none => exact le_refl 0
        | some itemName =>
          dsimp only
          split_ifs with h1 h2
          · linarith [h1.2]
          · exact le_refl 0
          · exact le_refl 0
      linarith
    · have hpostsI : postsIncome r taxCollectedName := by
        refine ⟨?_, hty, Or.inr ⟨rfl, htax⟩⟩
        rw [hd]
        rfl
      have hacct := (acct_income_iff records taxCollectedName
        (H taxCollectedName)).mpr ⟨r, hr, hpostsI⟩
      have hpair : (taxCollectedName, AccountType.income) ∈
          (foldState records).2 :=
        (mem_iff_jsGet _ hnd _ _).mpr hacct
      obtain ⟨a, ha, han, hat⟩ :=
        pair_mem_buildAccounts _ _ _ hpair
      refine ⟨a, ?_, han, hat, ?_⟩
      · rw [aggregate_snd_eq]
        exact ha
      · intro itemName hci hne b hb hbn heq
        apply hne
        rw [← hbn, heq, han]
  · intro hty htax
    constructor
    · rw [bucketAmt_foldState]
      have hnn : ∀ x ∈ records.map
          (fun r2 => contrib r2 mo taxPaidName), 0 ≤ x := by
        intro x hx
        obtain ⟨r2, _, rfl⟩ := List.mem_map.mp hx
        exact contrib_nonneg r2 mo taxPaidName
      have hmem : contrib r mo taxPaidName ∈
          records.map (fun r2 => contrib r2 mo taxPaidName) :=
        List.mem_map_of_mem _ hr
      have hle := List.single_le_sum hnn _ hmem
      refine le_trans ?_ hle
      have hco : contrib r mo taxPaidName =
          expContrib r taxPaidName := by
        simp [contrib, hd, hty]
      rw [hco]
      unfold expContrib
      rw [if_pos htax, if_pos rfl]
      have hitem : (0 : ℚ) ≤ (match r.debit_item with
          | some itemName =>
            if itemName ≠ "" ∧ numOr0 r.debit_amount > 0 then
              (if taxPaidName = itemName then numOr0 r.debit_amount
               else 0)
            else 0
          | none => 0) := by
        cases r.debit_item with
        | none => exact le_refl 0
        | some itemName =>
          dsimp only
          split_ifs with h1 h2
          · linarith [h1.2]
          · exact le_refl 0
          · exact le_refl 0
      linarith
    · have hpostsE : postsExpense r taxPaidName := by
        refine ⟨?_, hty, Or.inr ⟨rfl, htax⟩⟩
        rw [hd]
        rfl
      have hacct := (acct_expense_iff records taxPaidName
        (H taxPaidName)).mpr ⟨r, hr, hpostsE⟩
      have hpair : (taxPaidName, AccountType.expense) ∈
          (foldState records).2 :=
        (mem_iff_jsGet _ hnd _ _).mpr hacct
      obtain ⟨a, ha, han, hat⟩ :=
        pair_mem_buildAccounts _ _ _ hpair
      refine ⟨a, ?_, han, hat, ?_⟩
      · rw [aggregate_snd_eq]
        exact ha
      · intro itemName hci hne b hb hbn heq
        apply hne
        rw [← hbn, heq, han]

/-- Witness for C8 (amended): an inbound record (Sales 1000, tax 80,
2024-03) and an outbound record (Supplies 500, tax 40, 2024-04): the
tax-collected bucket of 2024-03 holds at least 80 and 仮受消費税 is an
income series entry; the tax-paid bucket of 2024-04 holds at least 40
and 仮払消費税 is an expense series entry. -/
theorem C8_tax_pseudo_account_witness :
    ((80 : ℚ) ≤ bucketAmt (foldState
        [⟨some ⟨2024, 3⟩, some 1, some "Sales", some 1000, some 80,
          none, none, none⟩,
         ⟨some ⟨2024, 4⟩, some 2, none, none, none, some "Supplies",
          some 500, some 40⟩]).1 ⟨2024, 3⟩ taxCollectedName
     ∧ ∃ a ∈ (aggregate
        [⟨some ⟨2024, 3⟩, some 1, some "Sales", some 1000, some 80,
          none, none, none⟩,
         ⟨some ⟨2024, 4⟩, some 2, none, none, none, some "Supplies",
          some 500, some 40⟩]).2,
        a.name = taxCollectedName ∧ a.type = AccountType.income)
    ∧ ((40 : ℚ) ≤ bucketAmt (foldState
        [⟨some ⟨2024, 3⟩, some 1, some "Sales", some 1000, some 80,
          none, none, none⟩,
         ⟨some ⟨2024, 4⟩, some 2, none, none, none, some "Supplies",
          some 500, some 40⟩]).1 ⟨2024, 4⟩ taxPaidName
     ∧ ∃ a ∈ (aggregate
        [⟨some ⟨2024, 3⟩, some 1, some "Sales", some 1000, some 80,
          none, none, none⟩,
         ⟨some ⟨2024, 4⟩, some 2, none, none, none, some "Supplies",
          some 500, some 40⟩]).2,
        a.name = taxPaidName ∧ a.type = AccountType.expense) := by
  have h1 := C8_tax_pseudo_account
    [⟨some ⟨2024, 3⟩, some 1, some "Sales", some 1000, some 80,
      none, none, none⟩,
     ⟨some ⟨2024, 4⟩, some 2, none, none, none, some "Supplies",
      some 500, some 40⟩]
    (disjoint_of_checked _ (by decide))
    ⟨some ⟨2024, 3⟩, some 1, some "Sales", some 1000, some 80,
      none, none, none⟩ (by decide) ⟨2024, 3⟩ rfl
  have h2 := C8_tax_pseudo_account
    [⟨some ⟨2024, 3⟩, some 1, some "Sales", some 1000, some 80,
      none, none, none⟩,
     ⟨some ⟨2024, 4⟩, some 2, none, none, none, some "Supplies",
      some 500, some 40⟩]
    (disjoint_of_checked _ (by decide))
    ⟨some ⟨2024, 4⟩, some 2, none, none, none, some "Supplies",
      some 500, some 40⟩ (by decide) ⟨2024, 4⟩ rfl
  obtain ⟨hb1, a1, ha1, hn1, ht1, _⟩ := h1.1 rfl (by decide)
  obtain ⟨hb2, a2, ha2, hn2, ht2, _⟩ := h2.2 rfl (by decide)
  exact ⟨⟨hb1, a1, ha1, hn1, ht1⟩, ⟨hb2, a2, ha2, hn2, ht2⟩⟩

/-! ## Claim C9 -/

theorem jsSet_append_fresh {α β : Type} [DecidableEq α] (k : α) (v : β)
    (m : List (α × β)) (h : k ∉ m.map Prod.fst) :
    jsSet k v m = m ++ [(k, v)] := by
  induction m with
  | nil => rfl
  | cons p rest ih =>
    obtain ⟨k2, v2⟩ := p
    simp only [List.map_cons, List.mem_cons, not_or] at h
    rw [show jsSet k v ((k2, v2) :: rest) =
        if k = k2 then (k, v) :: rest else (k2, v2) :: jsSet k v rest
      from rfl]
    rw [if_neg h.1, ih h.2, List.cons_append]

theorem ledgerZipName_inj (df dt ext : String) :
    Function.Injective (fun acct => ledgerZipName acct df dt ext) := by
  intro a b h
  have hd := congrArg String.data h
  simp only [ledgerZipName, String.data_append, List.append_assoc] at hd
  have h1 := List.append_cancel_left hd
  have h2 : a.data = b.data := List.append_cancel_right h1
  obtain ⟨la⟩ := a
  obtain ⟨lb⟩ := b
  exact congrArg String.mk h2

theorem zip_fold_entries {β : Type} (keyf : Ledger → String)
    (valf : Ledger → β) (ledgers : List Ledger)
    (zip : List (String × β))
    (hfresh : ∀ l ∈ ledgers, keyf l ∉ zip.map Prod.fst)
    (hnd : (ledgers.map keyf).Nodup) :
    ledgers.foldl (fun z l => jsSet (keyf l) (valf l) z) zip =
      zip ++ ledgers.map (fun l => (keyf l, valf l)) := by
  induction ledgers generalizing zip with
  | nil => simp
  | cons l rest ih =>
    simp only [List.map_cons, List.nodup_cons] at hnd
    have hfresh2 : ∀ l2 ∈ rest,
        keyf l2 ∉ (zip ++ [(keyf l, valf l)]).map Prod.fst := by
      intro l2 hl2 hmem
      rw [List.map_append] at hmem
      rcases List.mem_append.mp hmem with hin | hin
      · exact hfresh l2 (List.mem_cons_of_mem l hl2) hin
      · simp only [List.map_cons, List.map_nil,
          List.mem_singleton] at hin
        apply hnd.1
        rw [← hin]
        exact List.mem_map_of_mem keyf hl2
    have ih2 := ih (zip ++ [(keyf l, valf l)]) hfresh2 hnd.2
    rw [List.foldl_cons,
      jsSet_append_fresh _ _ _ (hfresh l (List.mem_cons_self l rest)),
      ih2, List.append_assoc]
    simp

theorem pdf_fold_trace (ledgers : List Ledger) (df dt : String)
    (cap : ℕ) (config : PDFConfig)
    (st : List ZipEvent × List (String × List RenderedPage)) :
    (ledgers.foldl (fun st l =>
      (st.1 ++ [ZipEvent.generated l.accountName,
                ZipEvent.filed (ledgerZipName l.accountName df dt ".pdf")],
       zipFile (ledgerZipName l.accountName df dt ".pdf")
         (generatePagedDoc ledgerPdfHeader (ledgerPdfRows l) cap config)
         st.2)) st).1 =
      st.1 ++ (ledgers.map (fun l =>
        [ZipEvent.generated l.accountName,
         ZipEvent.filed (ledgerZipName l.accountName df dt ".pdf")])).flatten
    ∧ (ledgers.foldl (fun st l =>
      (st.1 ++ [ZipEvent.generated l.accountName,
                ZipEvent.filed (ledgerZipName l.accountName df dt ".pdf")],
       zipFile (ledgerZipName l.accountName df dt ".pdf")
         (generatePagedDoc ledgerPdfHeader (ledgerPdfRows l) cap config)
         st.2)) st).2 =
      ledgers.foldl (fun z l =>
        jsSet (ledgerZipName l.accountName df dt ".pdf")
          (generatePagedDoc ledgerPdfHeader (ledgerPdfRows l) cap config)
          z) st.2 := by
  induction ledgers generalizing st with
  | nil => exact ⟨by simp, rfl⟩
  | cons l rest ih =>
    rw [List.foldl_cons, List.foldl_cons]
    obtain ⟨ih1, ih2⟩ := ih
      (st.1 ++ [ZipEvent.generated l.accountName,
        ZipEvent.filed (ledgerZipName l.accountName df dt ".pdf")],
       zipFile (ledgerZipName l.accountName df dt ".pdf")
         (generatePagedDoc ledgerPdfHeader (ledgerPdfRows l) cap config)
         st.2)
    refine ⟨?_, ih2⟩
    rw [ih1]
    simp [List.append_assoc]

/-- C9.  For every list of per-account ledgers with pairwise-distinct
account names, the export-all flows produce an archive with exactly one
entry per ledger, whose names are exactly the supplied per-document
filenames (`総勘定元帳_` + account + `_` + date range + extension), in
ledger order, with the per-ledger document as content — no renaming
and no deduplication; and in the PDF flow the event trace shows each
document generated to completion before its entry is filed and before
the next document begins. -/
theorem C9_export_all_bundle (ledgers : List Ledger) (df dt : String)
    (cap : ℕ) (config : PDFConfig)
    (hnd : (ledgers.map Ledger.accountName).Nodup) :
    (handleExportAllCSV ledgers df dt).map Prod.fst =
      ledgers.map (fun l => ledgerZipName l.accountName df dt ".csv")
    ∧ (handleExportAllCSV ledgers df dt).length = ledgers.length
    ∧ (handleExportAllCSV ledgers df dt).map Prod.snd =
      ledgers.map generateLedgerCSV
    ∧ (handlePDFExport ledgers df dt cap config).2.map Prod.fst =
      ledgers.map (fun l => ledgerZipName l.accountName df dt ".pdf")
    ∧ (handlePDFExport ledgers df dt cap config).2.length = ledgers.length
    ∧ (handlePDFExport ledgers df dt cap config).1 =
      (ledgers.map (fun l =>
        [ZipEvent.generated l.accountName,
         ZipEvent.filed (ledgerZipName l.accountName df dt ".pdf")])).flatten := by
  have hndcsv :
      (ledgers.map (fun l =>
        ledgerZipName l.accountName df dt ".csv")).Nodup := by
    have := hnd.map (ledgerZipName_inj df dt ".csv")
    rw [List.map_map] at this
    exact this
  have hndpdf :
      (ledgers.map (fun l =>
        ledgerZipName l.accountName df dt ".pdf")).Nodup := by
    have := hnd.map (ledgerZipName_inj df dt ".pdf")
    rw [List.map_map] at this
    exact this
  have hcsv : handleExportAllCSV ledgers df dt =
      [] ++ ledgers.map (fun l =>
        (ledgerZipName l.accountName df dt ".csv",
         generateLedgerCSV l)) :=
    zip_fold_entries
      (fun l => ledgerZipName l.accountName df dt ".csv")
      generateLedgerCSV ledgers [] (by simp) hndcsv
  obtain ⟨htr, hzip⟩ := pdf_fold_trace ledgers df dt cap config ([], [])
  have hpdf : (handlePDFExport ledgers df dt cap config).2 =
      [] ++ ledgers.map (fun l =>
        (ledgerZipName l.accountName df dt ".pdf",
         generatePagedDoc ledgerPdfHeader (ledgerPdfRows l) cap
           config)) := by
    refine Eq.trans hzip ?_
    exact zip_fold_entries
      (fun l => ledgerZipName l.accountName df dt ".pdf")
      (fun l => generatePagedDoc ledgerPdfHeader (ledgerPdfRows l) cap
        config) ledgers [] (by simp) hndpdf
  rw [List.nil_append] at hcsv hpdf
  refine ⟨?_, ?_, ?_, ?_, ?_, ?_⟩
  · rw [hcsv, List.map_map]
    rfl
  · rw [hcsv, List.length_map]
  · rw [hcsv, List.map_map]
    rfl
  · rw [hpdf, List.map_map]
    rfl
  · rw [hpdf, List.length_map]
  · exact htr

/-- Witness for C9: two ledgers (現金, 売上) over 2024; both archives
hold exactly the two expected entry names in order, and the PDF trace
alternates generation and filing per ledger. -/
theorem C9_export_all_bundle_witness :
    (handleExportAllCSV
      [⟨"現金", [], 0, 0, 0⟩, ⟨"売上", [], 0, 0, 0⟩]
      "2024-01-01" "2024-12-31").map Prod.fst =
      ([⟨"現金", [], 0, 0, 0⟩,
        ⟨"売上", [], 0, 0, 0⟩] : List Ledger).map (fun l =>
        ledgerZipName l.accountName "2024-01-01" "2024-12-31" ".csv")
    ∧ (handleExportAllCSV
      [⟨"現金", [], 0, 0, 0⟩, ⟨"売上", [], 0, 0, 0⟩]
      "2024-01-01" "2024-12-31").length =
      ([⟨"現金", [], 0, 0, 0⟩,
        ⟨"売上", [], 0, 0, 0⟩] : List Ledger).length
    ∧ (handleExportAllCSV
      [⟨"現金", [], 0, 0, 0⟩, ⟨"売上", [], 0, 0, 0⟩]
      "2024-01-01" "2024-12-31").map Prod.snd =
      ([⟨"現金", [], 0, 0, 0⟩,
        ⟨"売上", [], 0, 0, 0⟩] : List Ledger).map generateLedgerCSV
    ∧ (handlePDFExport
      [⟨"現金", [], 0, 0, 0⟩, ⟨"売上", [], 0, 0, 0⟩]
      "2024-01-01" "2024-12-31" 5 ⟨"総勘定元帳", "r", "c"⟩).2.map
        Prod.fst =
      ([⟨"現金", [], 0, 0, 0⟩,
        ⟨"売上", [], 0, 0, 0⟩] : List Ledger).map (fun l =>
        ledgerZipName l.accountName "2024-01-01" "2024-12-31" ".pdf")
    ∧ (handlePDFExport
      [⟨"現金", [], 0, 0, 0⟩, ⟨"売上", [], 0, 0, 0⟩]
      "2024-01-01" "2024-12-31" 5 ⟨"総勘定元帳", "r", "c"⟩).2.length =
      ([⟨"現金", [], 0, 0, 0⟩,
        ⟨"売上", [], 0, 0, 0⟩] : List Ledger).length
    ∧ (handlePDFExport
      [⟨"現金", [], 0, 0, 0⟩, ⟨"売上", [], 0, 0, 0⟩]
      "2024-01-01" "2024-12-31" 5 ⟨"総勘定元帳", "r", "c"⟩).1 =
      (([⟨"現金", [], 0, 0, 0⟩,
         ⟨"売上", [], 0, 0, 0⟩] : List Ledger).map (fun l =>
        [ZipEvent.generated l.accountName,
         ZipEvent.filed (ledgerZipName l.accountName "2024-01-01"
           "2024-12-31" ".pdf")])).flatten :=
  C9_export_all_bundle
    [⟨"現金", [], 0, 0, 0⟩, ⟨"売上", [], 0, 0, 0⟩]
    "2024-01-01" "2024-12-31" 5 ⟨"総勘定元帳", "r", "c"⟩ (by decide)

/-! ## Claim C10 -/

/-- C10.  If the first `loadFontData` call's fetch fails, the call
rejects, the two font caches remain unset and the module-level promise
holds the rejection; from that state every later call — whatever a
fresh fetch would now return, even a success — returns the very same
cached rejection, leaves the state untouched and never attempts a
fetch, over any whole session of subsequent calls. -/
theorem C10_font_promise_never_reset (e : String)
    (fetches : List (Except String (String × String))) :
    (loadFontData ⟨none, none, none⟩ (Except.error e)).2.1 =
      Except.error e
    ∧ (loadFontData ⟨none, none, none⟩ (Except.error e)).2.2 = true
    ∧ (loadFontData ⟨none, none, none⟩ (Except.error e)).1 =
      ⟨none, none, some (Except.error e)⟩
    ∧ (∀ f, loadFontData ⟨none, none, some (Except.error e)⟩ f =
        (⟨none, none, some (Except.error e)⟩, Except.error e, false))
    ∧ runCalls ⟨none, none, some (Except.error e)⟩ fetches =
        (⟨none, none, some (Except.error e)⟩,
         fetches.map (fun _ => (Except.error e, false))) := by
  have hstep : ∀ f, loadFontData ⟨none, none, some (Except.error e)⟩ f =
      (⟨none, none, some (Except.error e)⟩, Except.error e, false) :=
    fun f => rfl
  refine ⟨rfl, rfl, rfl, hstep, ?_⟩
  have hrun : ∀ (fs : List (Except String (String × String)))
      (acc : List (Except String (String × String) × Bool)),
      fs.foldl (fun acc2 f =>
        ((loadFontData acc2.1 f).1, acc2.2 ++ [(loadFontData acc2.1 f).2]))
        (⟨none, none, some (Except.error e)⟩, acc) =
      (⟨none, none, some (Except.error e)⟩,
       acc ++ fs.map (fun _ => (Except.error e, false))) := by
    intro fs
    induction fs with
    | nil =>
      intro acc
      simp
    | cons f rest ih =>
      intro acc
      rw [List.foldl_cons]
      have hs := hstep f
      rw [show ((loadFontData ⟨none, none, some (Except.error e)⟩ f).1,
          acc ++ [(loadFontData ⟨none, none, some (Except.error e)⟩ f).2])
          = (⟨none, none, some (Except.error e)⟩,
             acc ++ [(Except.error e, false)]) by rw [hs]]
      rw [ih (acc ++ [(Except.error e, false)])]
      simp
  have := hrun fetches []
  rw [List.nil_append] at this
  exact this

end Rigel


















